import Mathlib

/-!
Shallow embedding of the tuf-on-ci repository state engine
(`repo/tuf_on_ci/_repository.py` and `signer/tuf_on_ci_sign/_signer_repository.py`)
with machine-checked statements of the spec's claims about it.

Python dictionaries are modelled as association lists without duplicate keys,
machine integers and byte values as `Nat` (with explicit `% 2 ^ 32` where the
source's arithmetic is 32-bit, i.e. in SHA-256), timestamps as `Int` seconds,
`timedelta(days=d)` as `d * 86400`, and raised exceptions as `Except String`.
-/

namespace TufOnCi

/-! ## Association-list dictionaries (Python `dict`) -/

/-- Lookup in an association list (Python `d[k]` / `d.get(k)`). -/
def assocLookup {κ α : Type} [DecidableEq κ] (xs : List (κ × α)) (k : κ) :
    Option α :=
  match xs with
  | [] => none
  | (k', v) :: rest => if k' = k then some v else assocLookup rest k

/-- Python `d[k] = v` on a dict: replaces the value in place if the key exists,
otherwise appends (insertion order preserved, as in Python dicts). -/
def dictSet {κ α : Type} [DecidableEq κ] (xs : List (κ × α)) (k : κ) (v : α) :
    List (κ × α) :=
  match xs with
  | [] => [(k, v)]
  | (k', v') :: rest =>
    if k' = k then (k', v) :: rest else (k', v') :: dictSet rest k v

/-- Python `del d[k]` on a dict without duplicate keys. -/
def dictDel {κ α : Type} [DecidableEq κ] (xs : List (κ × α)) (k : κ) :
    List (κ × α) :=
  xs.filter fun kv => decide (kv.1 ≠ k)

/-- Python `d1 == d2` for dicts: order-insensitive equality of key/value sets
(dicts have no duplicate keys). -/
def dictEq {κ α : Type} [DecidableEq κ] [DecidableEq α] (a b : List (κ × α)) :
    Bool :=
  a.all (fun kv => assocLookup b kv.1 == some kv.2) &&
    b.all (fun kv => assocLookup a kv.1 == some kv.2)

/-- Python `set.add`: append if not already present. -/
def setInsert (xs : List String) (x : String) : List String :=
  if x ∈ xs then xs else xs ++ [x]

/-- Python `set.update`: fold `setInsert` over the added elements. -/
def setUnion (xs : List String) (ys : List String) : List String :=
  ys.foldl setInsert xs

/-! ## SHA-256 (`securesystemslib.hash.digest("sha256")`)

A byte is a `Nat < 256`; every 32-bit operation reduces modulo `2 ^ 32`. -/

/-- Rotate a 32-bit word right by `n`. -/
def rotr (n x : Nat) : Nat := ((x >>> n) ||| (x <<< (32 - n))) % 2 ^ 32

/-- The 64 SHA-256 round constants. -/
def shaK : List Nat :=
  [1116352408, 1899447441, 3049323471, 3921009573, 961987163,
   1508970993, 2453635748, 2870763221, 3624381080, 310598401,
   607225278, 1426881987, 1925078388, 2162078206, 2614888103,
   3248222580, 3835390401, 4022224774, 264347078, 604807628,
   770255983, 1249150122, 1555081692, 1996064986, 2554220882,
   2821834349, 2952996808, 3210313671, 3336571891, 3584528711,
   113926993, 338241895, 666307205, 773529912, 1294757372,
   1396182291, 1695183700, 1986661051, 2177026350, 2456956037,
   2730485921, 2820302411, 3259730800, 3345764771, 3516065817,
   3600352804, 4094571909, 275423344, 430227734, 506948616,
   659060556, 883997877, 958139571, 1322822218, 1537002063,
   1747873779, 1955562222, 2024104815, 2227730452, 2361852424,
   2428436474, 2756734187, 3204031479, 3329325298]

/-- The SHA-256 initial hash state. -/
def shaInit : List Nat :=
  [1779033703, 3144134277, 1013904242, 2773480762,
   1359893119, 2600822924, 528734635, 1541459225]

/-- `v` as `n` big-endian bytes. -/
def beBytes (n v : Nat) : List Nat :=
  (List.range n).map fun i => (v >>> (8 * (n - 1 - i))) % 256

/-- SHA-256 message padding: `0x80`, zeros to 56 mod 64, 8-byte bit length. -/
def padMessage (msg : List Nat) : List Nat :=
  let padZeros := (64 - (msg.length + 9) % 64) % 64
  msg ++ [0x80] ++ List.replicate padZeros 0 ++ beBytes 8 (msg.length * 8)

/-- Group bytes into big-endian 32-bit words. -/
def bytesToWords : List Nat → List Nat
  | a :: b :: c :: d :: rest =>
    (a * 2 ^ 24 + b * 2 ^ 16 + c * 2 ^ 8 + d) :: bytesToWords rest
  | _ => []

/-- Split a word list into blocks of 16 words (structural recursion so that
the kernel can evaluate it; trailing partial blocks cannot occur after
padding). -/
def chunk16 : List Nat → List (List Nat)
  | w0 :: w1 :: w2 :: w3 :: w4 :: w5 :: w6 :: w7 ::
    w8 :: w9 :: w10 :: w11 :: w12 :: w13 :: w14 :: w15 :: rest =>
    [w0, w1, w2, w3, w4, w5, w6, w7, w8, w9, w10, w11, w12, w13, w14, w15] ::
      chunk16 rest
  | _ => []

/-- SHA-256 small sigma 0. -/
def smallSigma0 (x : Nat) : Nat := (rotr 7 x) ^^^ (rotr 18 x) ^^^ (x >>> 3)

/-- SHA-256 small sigma 1. -/
def smallSigma1 (x : Nat) : Nat := (rotr 17 x) ^^^ (rotr 19 x) ^^^ (x >>> 10)

/-- Append the next word of the SHA-256 message schedule. -/
def schedStep (acc : List Nat) : List Nat :=
  let n := acc.length
  acc ++ [(smallSigma1 (acc.getD (n - 2) 0) + acc.getD (n - 7) 0 +
           smallSigma0 (acc.getD (n - 15) 0) + acc.getD (n - 16) 0) % 2 ^ 32]

/-- Extend a 16-word block to the 64-word message schedule. -/
def msgSchedule (ws : List Nat) : List Nat := Nat.repeat schedStep 48 ws

/-- One SHA-256 compression round with constant `k` and schedule word `w`. -/
def compressStep (k w : Nat) (st : List Nat) : List Nat :=
  match st with
  | [a, b, c, d, e, f, g, h] =>
    let bigSigma1 := (rotr 6 e) ^^^ (rotr 11 e) ^^^ (rotr 25 e)
    let ch := (e &&& f) ^^^ ((e ^^^ 0xffffffff) &&& g)
    let t1 := (h + bigSigma1 + ch + k + w) % 2 ^ 32
    let bigSigma0 := (rotr 2 a) ^^^ (rotr 13 a) ^^^ (rotr 22 a)
    let maj := (a &&& b) ^^^ (a &&& c) ^^^ (b &&& c)
    let t2 := (bigSigma0 + maj) % 2 ^ 32
    [(t1 + t2) % 2 ^ 32, a, b, c, (d + t1) % 2 ^ 32, e, f, g]
  | other => other

/-- Process one 16-word block into the running hash state. -/
def compressBlock (st : List Nat) (block : List Nat) : List Nat :=
  let w := msgSchedule block
  let final := (shaK.zip w).foldl (fun s kw => compressStep kw.1 kw.2 s) st
  (st.zip final).map fun p => (p.1 + p.2) % 2 ^ 32

/-- SHA-256 of a byte list, as eight 32-bit words. -/
def sha256Words (msg : List Nat) : List Nat :=
  (chunk16 (bytesToWords (padMessage msg))).foldl compressBlock shaInit

/-- One lowercase hex digit. -/
def hexChar (n : Nat) : Char :=
  "0123456789abcdef".toList.getD n '0'

/-- A 32-bit word as 8 lowercase hex digits. -/
def wordToHex (w : Nat) : String :=
  String.mk ((List.range 8).map fun i => hexChar ((w >>> (4 * (7 - i))) % 16))

/-- Lowercase hex SHA-256 digest of a byte list (`hasher.hexdigest()`). -/
def sha256Hex (msg : List Nat) : String :=
  String.join ((sha256Words msg).map wordToHex)

/-- Sanity check of the SHA-256 implementation against the FIPS 180 test
vector for the ASCII message "abc". -/
example :
    sha256Hex [0x61, 0x62, 0x63] =
      "ba7816bf8f01cfea414140de5dae2223b00361a396177a9cb410ff61f20015ad" := by
  decide

/-! ## Canonical JSON (`securesystemslib.formats.encode_canonical`)

OLPC canonical JSON: UTF-8, object keys sorted, no whitespace, only `"` and
backslash escaped in strings, integers without a decimal point. -/

/-- A JSON value as accepted by `encode_canonical` (str, int, bool, None,
list, dict). -/
inductive Json where
  | str (s : String)
  | num (n : Int)
  | boolean (b : Bool)
  | null
  | arr (xs : List Json)
  | obj (fields : List (String × Json))
deriving Repr

/-- Escape a character for canonical JSON: only `"` and `\` get a backslash
(`re.sub(r'(["\\])', r'\\\1', string)`). -/
def canonicalEscapeChar (c : Char) : List Char :=
  if c = '"' || c = '\\' then ['\\', c] else [c]

/-- A canonical JSON string literal (`_canonical_string_encoder`). -/
def canonicalStr (s : String) : String :=
  "\"" ++ String.mk (s.data.map canonicalEscapeChar).flatten ++ "\""

/-- Code-point lexicographic order on character lists, as Python compares
strings. -/
def charListLt : List Char → List Char → Bool
  | [], [] => false
  | [], _ :: _ => true
  | _ :: _, [] => false
  | a :: as, b :: bs =>
    if a.toNat < b.toNat then true
    else if b.toNat < a.toNat then false
    else charListLt as bs

/-- Python `str < str`. -/
def strLt (a b : String) : Bool := charListLt a.data b.data

/-- Insert a key/value pair into a key-sorted pair list (Python
`sorted(object.items())`; dict keys are unique, so comparing keys only is
equivalent). -/
def insertSorted {α : Type} (p : String × α) :
    List (String × α) → List (String × α)
  | [] => [p]
  | q :: qs => if strLt p.1 q.1 then p :: q :: qs else q :: insertSorted p qs

/-- Sort a pair list by key. -/
def sortPairs {α : Type} (xs : List (String × α)) : List (String × α) :=
  xs.foldr insertSorted []

mutual

/-- Canonical JSON encoding of a value (`encode_canonical`). Object values
are encoded first and the encoded pairs then sorted by key; since keys are
unchanged by encoding this matches the source's sort-then-encode order. -/
def encodeCanonical : Json → String
  | .str s => canonicalStr s
  | .num n => toString n
  | .boolean b => cond b "true" "false"
  | .null => "null"
  | .arr xs => "[" ++ String.intercalate "," (encodeList xs) ++ "]"
  | .obj fields =>
    "\x7b" ++
      String.intercalate ","
        ((sortPairs (encodeFields fields)).map fun kv =>
          canonicalStr kv.1 ++ ":" ++ kv.2) ++ "\x7d"
termination_by structural j => j

/-- Canonical encodings of the items of a JSON array. -/
def encodeList : List Json → List String
  | [] => []
  | j :: js => encodeCanonical j :: encodeList js
termination_by structural xs => xs

/-- Canonical encodings of the values of a JSON object, keys untouched. -/
def encodeFields : List (String × Json) → List (String × String)
  | [] => []
  | (k, v) :: rest => (k, encodeCanonical v) :: encodeFields rest
termination_by structural xs => xs

end

/-- UTF-8 encoding of one character (`str.encode()`). -/
def charUtf8 (c : Char) : List Nat :=
  let n := c.toNat
  if n < 0x80 then [n]
  else if n < 0x800 then [0xc0 ||| (n >>> 6), 0x80 ||| (n &&& 0x3f)]
  else if n < 0x10000 then
    [0xe0 ||| (n >>> 12), 0x80 ||| ((n >>> 6) &&& 0x3f), 0x80 ||| (n &&& 0x3f)]
  else
    [0xf0 ||| (n >>> 18), 0x80 ||| ((n >>> 12) &&& 0x3f),
     0x80 ||| ((n >>> 6) &&& 0x3f), 0x80 ||| (n &&& 0x3f)]

/-- UTF-8 bytes of a string. -/
def utf8Bytes (s : String) : List Nat := (s.data.map charUtf8).flatten

/-! ## Keys (`securesystemslib.signer.Key`, keyid derivation) -/

/-- A public key object: keyid, keytype, scheme, keyval and the
`unrecognized_fields` holding the `x-tuf-on-ci-*` custom annotations
(`keyowner` / `online-uri`). Key values in tuf-on-ci metadata are
string-to-string dictionaries. -/
structure KeyM where
  keyid : String
  keytype : String
  scheme : String
  keyval : List (String × String)
  unrec : List (String × String)
deriving DecidableEq, Repr

/-- `Key.to_dict()`: keytype, scheme, keyval and the unrecognized fields;
the keyid itself is not part of the dictionary. -/
def KeyM.toDict (k : KeyM) : Json :=
  .obj ([("keytype", .str k.keytype), ("scheme", .str k.scheme),
         ("keyval", .obj (k.keyval.map fun kv => (kv.1, .str kv.2)))] ++
        k.unrec.map fun kv => (kv.1, .str kv.2))

/-- `_calculate_keyid`: lowercase hex SHA-256 of the canonical JSON of the
key dictionary. -/
def calculateKeyid (key : KeyM) : String :=
  sha256Hex (utf8Bytes (encodeCanonical (KeyM.toDict key)))

/-- `set_key_field`: store an `x-tuf-on-ci-<name>` annotation on the key and
recompute the keyid from the updated key object. -/
def setKeyField (key : KeyM) (name value : String) : KeyM :=
  let key' :=
    { key with unrec := dictSet key.unrec ("x-tuf-on-ci-" ++ name) value }
  { key' with keyid := calculateKeyid key' }

/-- Sanity check: the canonical key encoding of the test key from
`test_set_key_field` has the expected canonical-JSON form. -/
example :
    encodeCanonical (KeyM.toDict
      ⟨"abcd", "ed25519", "ed25519", [("public", "abcde")],
       [("x-tuf-on-ci-keyowner", "@testuser")]⟩) =
    "\x7b\"keytype\":\"ed25519\",\"keyval\":\x7b\"public\":\"abcde\"\x7d," ++
      "\"scheme\":\"ed25519\",\"x-tuf-on-ci-keyowner\":\"@testuser\"\x7d" := by
  decide

example :
    (setKeyField ⟨"abcd", "ed25519", "ed25519", [("public", "abcde")], []⟩
        "keyowner" "@testuser").keyid =
      "3e5e819246b51532a5533efb5d7c3e18ca8e7a7f4d2267644c3e2298ac81de18" := by
  decide

/-! ## Glob pattern matching (`glob.glob(pattern, root_dir=target_dir)`)

Non-recursive glob: `*` and `?` match within one path segment only, and a
wildcard never matches a name that starts with a dot. -/

/-- Match one path segment against one pattern segment, `fnmatch`-style with
`*` and `?` wildcards. Structural recursion on fuel so that the kernel can
evaluate it; every recursive call shrinks `ps.length + cs.length`, so the
wrapper's fuel never runs out. -/
def segMatchGo : Nat → List Char → List Char → Bool
  | 0, _, _ => false
  | _ + 1, [], [] => true
  | fuel + 1, '*' :: ps, [] => segMatchGo fuel ps []
  | fuel + 1, '*' :: ps, c :: cs =>
    segMatchGo fuel ps (c :: cs) || segMatchGo fuel ('*' :: ps) cs
  | fuel + 1, '?' :: ps, _ :: cs => segMatchGo fuel ps cs
  | fuel + 1, p :: ps, c :: cs => p = c && segMatchGo fuel ps cs
  | _ + 1, _ :: _, [] => false
  | _ + 1, [], _ :: _ => false

/-- Match one path segment against one pattern segment. -/
def segMatchChars (ps cs : List Char) : Bool :=
  segMatchGo (ps.length + cs.length + 1) ps cs

/-- Whether a character starts a hidden name. -/
def isHiddenStart : List Char → Bool
  | '.' :: _ => true
  | _ => false

/-- Match one path segment, with glob's hidden-file rule: a segment starting
with `.` is matched only when the pattern segment also starts with `.`. -/
def segMatch (pat seg : List Char) : Bool :=
  if isHiddenStart seg && !isHiddenStart pat then false
  else segMatchChars pat seg

/-- Split a path or pattern on `/`. -/
def splitSlash (s : String) : List (List Char) :=
  (s.data.splitOn '/')

/-- Non-recursive glob match of a relative path against a pattern: the two
must have the same number of `/`-separated segments and each segment must
match. -/
def globMatch (pattern path : String) : Bool :=
  let ps := splitSlash pattern
  let ss := splitSlash path
  ps.length = ss.length && (ps.zip ss).all fun p => segMatch p.1 p.2

/-- An entry of the artifact directory tree, as the target reconciler sees
it: its path relative to the artifact directory, whether it is a regular
file (`os.path.isfile`), and its content bytes. -/
structure FSEntry where
  path : String
  isFile : Bool
  content : List Nat
deriving DecidableEq, Repr

/-- Sanity checks of the glob model against Python `glob` behaviour. -/
example : globMatch "*" "tfile1.txt" = true := by decide
example : globMatch "*" "level1/file1.txt" = false := by decide
example : globMatch "levela/*" "levela/filea.txt" = true := by decide
example : globMatch "level1/file1.txt" "level1/file1.txt" = true := by decide
example : globMatch "myrole/*/*" "myrole/dir1/f.txt" = true := by decide
example : globMatch "*" ".hidden" = false := by decide

/-! ## TUF metadata model (`tuf.api.metadata`, as used by tuf-on-ci)

The custom lifecycle annotations (`x-tuf-on-ci-expiry-period`,
`x-tuf-on-ci-signing-period`) are integer-valued `unrecognized_fields` on
signed payloads and role descriptors; key annotations are string-valued. -/

/-- The annotation field names. -/
def expiryPeriodKey : String := "x-tuf-on-ci-expiry-period"

/-- The signing-period annotation field name. -/
def signingPeriodKey : String := "x-tuf-on-ci-signing-period"

/-- The keyowner annotation field name (`TAG_KEYOWNER`). -/
def keyownerTag : String := "x-tuf-on-ci-keyowner"

/-- The online-uri annotation field name (`TAG_ONLINE_URI`). -/
def onlineUriTag : String := "x-tuf-on-ci-online-uri"

/-- A target file entry (`tuf.api.metadata.TargetFile`): length, hashes, and
the `unrecognized_fields` (which carry any `custom` data). The path is the
key under which the entry is stored in the `targets` dict. -/
structure TargetFileM where
  length : Nat
  hashes : List (String × String)
  unrec : List (String × String)
deriving DecidableEq, Repr

/-- `TargetFile.from_file(fname, realpath, ["sha256"])`: length and sha256
hash of the file content, no unrecognized fields. -/
def targetFileFromFile (e : FSEntry) : TargetFileM :=
  ⟨e.content.length, [("sha256", sha256Hex e.content)], []⟩

/-- A role descriptor: both the `Role` entries of Root and the
`DelegatedRole` entries of a Targets delegation (keyids, threshold, optional
path patterns, terminating flag, and the integer-valued `x-tuf-on-ci-*`
period annotations). Root `Role`s have no paths. -/
structure DelegatedRoleM where
  keyids : List String
  threshold : Nat
  paths : Option (List String)
  terminating : Bool
  unrecInt : List (String × Int)
deriving DecidableEq, Repr

/-- The Root payload: `consistent_snapshot`, the key map and the four
top-level role descriptors. -/
structure RootPayloadM where
  consistentSnapshot : Bool
  keys : List (String × KeyM)
  roles : List (String × DelegatedRoleM)
deriving DecidableEq, Repr

/-- A Targets `delegations` block (key map plus ordered delegated roles;
tuf-on-ci always uses named roles, never succinct hash delegations). -/
structure DelegationsM where
  keys : List (String × KeyM)
  roles : List (String × DelegatedRoleM)
deriving DecidableEq, Repr

/-- The Targets payload: the targets dict and optional delegations. -/
structure TargetsPayloadM where
  targets : List (String × TargetFileM)
  delegations : Option DelegationsM
deriving DecidableEq, Repr

/-- A signed payload variant: Root, Targets, Snapshot (role filename to
version) or Timestamp (version of snapshot.json). -/
inductive PayloadM where
  | root (r : RootPayloadM)
  | targets (t : TargetsPayloadM)
  | snapshot (meta : List (String × Nat))
  | timestamp (snapshotMetaVersion : Nat)
deriving DecidableEq, Repr

/-- The common part of a signed payload: version, expiry, the integer-valued
custom annotations and the variant payload. Python `signed == signed`
comparison is structural equality of all of this. -/
structure SignedM where
  version : Nat
  expires : Int
  unrecInt : List (String × Int)
  payload : PayloadM
deriving DecidableEq, Repr

/-- A role document (`tuf.api.metadata.Metadata`): signed payload plus the
keyid-indexed signature map. -/
structure MetadataM where
  signed : SignedM
  signatures : List (String × String)
deriving DecidableEq, Repr

/-- A delegating payload: Root or Targets (`get_delegated_role` /
`get_key` are defined on exactly these two). -/
inductive DelegatorM where
  | root (r : RootPayloadM)
  | targets (t : TargetsPayloadM)
deriving DecidableEq, Repr

/-- `Root.get_delegated_role` / `Targets.get_delegated_role`; `none` models
the `ValueError` raised when the delegation does not exist. -/
def DelegatorM.getDelegatedRole : DelegatorM → String → Option DelegatedRoleM
  | .root r, name => assocLookup r.roles name
  | .targets t, name =>
    match t.delegations with
    | some d => assocLookup d.roles name
    | none => none

/-- `Root.get_key` / `Targets.get_key`; `none` models the `ValueError`
raised when the keyid is not in the key map. -/
def DelegatorM.getKey : DelegatorM → String → Option KeyM
  | .root r, keyid => assocLookup r.keys keyid
  | .targets t, keyid =>
    match t.delegations with
    | some d => assocLookup d.keys keyid
    | none => none

/-- The delegator view of a role document, when its payload delegates. -/
def mdDelegator (md : MetadataM) : Option DelegatorM :=
  match md.signed.payload with
  | .root r => some (.root r)
  | .targets t => some (.targets t)
  | _ => none

/-- `Role([], 1)`: the default python-tuf role descriptor. -/
def defaultRole : DelegatedRoleM := ⟨[], 1, none, false, []⟩

/-- `Root()`: the default python-tuf Root payload (consistent snapshot on,
no keys, the four top-level roles with empty keyids and threshold 1). -/
def defaultRoot : RootPayloadM :=
  ⟨true, [],
   [("root", defaultRole), ("timestamp", defaultRole),
    ("snapshot", defaultRole), ("targets", defaultRole)]⟩

/-- `Targets()`: the default python-tuf Targets payload. -/
def defaultTargets : TargetsPayloadM := ⟨[], none⟩

/-! ## `CIRepository` (`repo/tuf_on_ci/_repository.py`) -/

/-- `State` (target change kind). -/
inductive ChangeState where
  | added
  | modified
  | removed
deriving DecidableEq, Repr

/-- `TargetState`: a target file together with its change kind. -/
structure TargetStateM where
  path : String
  target : TargetFileM
  state : ChangeState
deriving DecidableEq, Repr

/-- The error messages `_validate_role` can return, one constructor per
source f-string, carrying the interpolated values:
`badVersion v r` is "Version \x7bv\x7d is not valid for \x7br\x7d",
`expiryTooFar d` is "Expiry date is further than expected \x7bd\x7d days
ahead", `noConsistentSnapshot` is "Consistent snapshot is not enabled",
`badRootVersion v` is "Version \x7bv\x7d is not valid for root",
`onlineSignersDiffer` is "Timestamp and Snapshot signers differ", and
`onlinePeriodInsane` is "Online signing or expiry period failed sanity
check". -/
inductive ValidationMsg where
  | badVersion (version : Nat) (rolename : String)
  | expiryTooFar (days : Int)
  | noConsistentSnapshot
  | badRootVersion (version : Nat)
  | onlineSignersDiffer
  | onlinePeriodInsane
deriving DecidableEq, Repr

/-- `SigningStatus`. -/
structure SigningStatusM where
  invites : List String
  signed : List String
  missing : List String
  threshold : Nat
  targetChanges : List TargetStateM
  valid : Bool
  message : Option ValidationMsg
deriving DecidableEq, Repr

/-- The state a `CIRepository` operates on: the signing-event metadata
directory, the optional known-good directory, the parsed
`.signing-event-state` invites, the current time, and the injected
cryptography (signature verification and the online signer) as abstract
functions. -/
structure CIRepo where
  files : List (String × MetadataM)
  prevFiles : Option (List (String × MetadataM))
  invites : List (String × List String)
  now : Int
  verify : KeyM → String → SignedM → Bool
  onlineSign : KeyM → SignedM → String

/-- `SigningEventState.invited_signers_for_role`: all invitees whose role
list contains the role. -/
def invitedSignersForRole (invites : List (String × List String))
    (rolename : String) : List String :=
  invites.foldl
    (fun signers kv => if kv.2.contains rolename then signers ++ [kv.1]
      else signers) []

/-- `CIRepository.open`: return stored metadata; a missing role is an error
(`ValueError`) except for the online roles, which get freshly initialized
empty metadata at version 0 (a fresh python-tuf `Signed` carries no custom
fields and expires at creation time). -/
def ciOpen (repo : CIRepo) (role : String) : Except String MetadataM :=
  match assocLookup repo.files role with
  | some md => .ok md
  | none =>
    if ¬(role = "timestamp" ∨ role = "snapshot") then
      .error ("Cannot create new " ++ role ++ " metadata")
    else if role = "timestamp" then
      .ok ⟨⟨0, repo.now, [], .timestamp 0⟩, []⟩
    else
      .ok ⟨⟨0, repo.now, [], .snapshot []⟩, []⟩

/-- `CIRepository.open_prev`: known-good metadata if it exists (a missing
directory behaves like a missing file). -/
def openPrev (repo : CIRepo) (role : String) : Option MetadataM :=
  match repo.prevFiles with
  | some fs => assocLookup fs role
  | none => none

/-- `Repository.root()`: open root, requiring a Root payload. -/
def ciRootPayload (repo : CIRepo) : Except String RootPayloadM :=
  match ciOpen repo "root" with
  | .error e => .error e
  | .ok md =>
    match md.signed.payload with
    | .root r => .ok r
    | _ => .error "assert isinstance(signed, Root)"

/-- `Repository.targets(rolename)`: open a targets role, requiring a
Targets payload. -/
def ciTargetsPayload (repo : CIRepo) (rolename : String) :
    Except String TargetsPayloadM :=
  match ciOpen repo rolename with
  | .error e => .error e
  | .ok md =>
    match md.signed.payload with
    | .targets t => .ok t
    | _ => .error "assert isinstance(signed, Targets)"

/-- `CIRepository._known_good_root`: Root from the known-good directory, or
an empty default `Root()` for comparison when the file is absent; asserts
that a known-good directory was configured. -/
def ciKnownGoodRoot (repo : CIRepo) : Except String RootPayloadM :=
  match repo.prevFiles with
  | none => .error "assert self._prev_dir is not None"
  | some fs =>
    match assocLookup fs "root" with
    | some md =>
      match md.signed.payload with
      | .root r => .ok r
      | _ => .error "assert isinstance(md.signed, Root)"
    | none => .ok defaultRoot

/-- `CIRepository._known_good_targets`: Targets from the known-good
directory, or an empty default `Targets()` when absent. -/
def ciKnownGoodTargets (repo : CIRepo) (rolename : String) :
    Except String TargetsPayloadM :=
  match repo.prevFiles with
  | none => .error "assert self._prev_dir"
  | some fs =>
    match assocLookup fs rolename with
    | some md =>
      match md.signed.payload with
      | .targets t => .ok t
      | _ => .error "assert isinstance(md.signed, Targets)"
    | none => .ok defaultTargets

/-- `CIRepository._get_keys`: public keys bound to a delegated role, read
from the signing-event or the known-good delegator. A missing delegation is
an uncaught `ValueError`; a key missing from the key map is skipped
(per-iteration `except ValueError: pass`), and in known-good mode keys
without a keyowner annotation are skipped (repo-import tolerance). -/
def ciGetKeys (repo : CIRepo) (role : String) (knownGood : Bool) :
    Except String (List KeyM) :=
  let delegatorE : Except String DelegatorM :=
    if role = "root" ∨ role = "timestamp" ∨ role = "snapshot" ∨
        role = "targets" then
      if knownGood then (ciKnownGoodRoot repo).map .root
      else (ciRootPayload repo).map .root
    else
      if knownGood then (ciKnownGoodTargets repo "targets").map .targets
      else (ciTargetsPayload repo "targets").map .targets
  match delegatorE with
  | .error e => .error e
  | .ok delegator =>
    match delegator.getDelegatedRole role with
    | none => .error "ValueError: get_delegated_role"
    | some r =>
      .ok (r.keyids.foldl
        (fun keys keyid =>
          match delegator.getKey keyid with
          | none => keys
          | some key =>
            if knownGood && (assocLookup key.unrec keyownerTag).isNone then
              keys
            else keys ++ [key]) [])

/-- `CIRepository.signing_expiry_period`: the `(signing, expiry)` period of
a role in days; reads the online-role delegation annotations from Root and
the payload annotations otherwise, defaulting the signing period to half
the expiry period (Python floor division). -/
def ciSigningExpiryPeriod (repo : CIRepo) (rolename : String) :
    Except String (Int × Int) :=
  let fieldsE : Except String (List (String × Int)) :=
    if rolename = "timestamp" ∨ rolename = "snapshot" then
      match ciRootPayload repo with
      | .error e => .error e
      | .ok root =>
        match assocLookup root.roles rolename with
        | none => .error "ValueError: get_delegated_role"
        | some role => .ok role.unrecInt
    else if rolename = "root" then
      match ciOpen repo "root" with
      | .error e => .error e
      | .ok md =>
        match md.signed.payload with
        | .root _ => .ok md.signed.unrecInt
        | _ => .error "assert isinstance(signed, Root)"
    else
      match ciOpen repo rolename with
      | .error e => .error e
      | .ok md =>
        match md.signed.payload with
        | .targets _ => .ok md.signed.unrecInt
        | _ => .error "assert isinstance(signed, Targets)"
  match fieldsE with
  | .error e => .error e
  | .ok fields =>
    match assocLookup fields expiryPeriodKey with
    | none => .error "KeyError: x-tuf-on-ci-expiry-period"
    | some expiryDays =>
      let signingDays :=
        match assocLookup fields signingPeriodKey with
        | some d => d
        | none => Int.fdiv expiryDays 2
      .ok (signingDays, expiryDays)

/-- `Metadata.verify_delegate` (python-tuf): look up the delegation, count
the delegated keys whose stored signature over the payload verifies, and
compare against the threshold. `none` models the `ValueError` for a missing
delegation; `some false` the `UnsignedMetadataError`. -/
def verifyDelegate (verify : KeyM → String → SignedM → Bool)
    (delegator : DelegatorM) (rolename : String) (md : MetadataM) :
    Option Bool :=
  match delegator.getDelegatedRole rolename with
  | none => none
  | some role =>
    let verifiedCount := (role.keyids.eraseDups).countP fun keyid =>
      match delegator.getKey keyid with
      | none => false
      | some key =>
        match assocLookup md.signatures keyid with
        | none => false
        | some sig => verify key sig md.signed
    some (decide (role.threshold ≤ verifiedCount))

/-- `CIRepository.close`: bump the version by one, set expiry from the
role's expiry period, wipe signatures, then re-sign with the online key(s)
for the online roles or add empty placeholder signatures for offline roles;
online roles are additionally verified against root before the write. -/
def ciClose (repo : CIRepo) (rolename : String) (md : MetadataM) :
    Except String CIRepo :=
  match ciSigningExpiryPeriod repo rolename with
  | .error e => .error e
  | .ok (_, expiryDays) =>
    let signed' : SignedM :=
      { md.signed with
          version := md.signed.version + 1,
          expires := repo.now + expiryDays * 86400 }
    match ciGetKeys repo rolename false with
    | .error e => .error e
    | .ok keys =>
      let sigsE : Except String (List (String × String)) :=
        if rolename = "timestamp" ∨ rolename = "snapshot" then
          keys.foldlM
            (fun sigs key =>
              match assocLookup key.unrec onlineUriTag with
              | none => .error "KeyError: x-tuf-on-ci-online-uri"
              | some _uri =>
                .ok (dictSet sigs key.keyid (repo.onlineSign key signed')))
            []
        else
          .ok (keys.foldl (fun sigs key => dictSet sigs key.keyid "") [])
      match sigsE with
      | .error e => .error e
      | .ok sigs =>
        let md' : MetadataM := ⟨signed', sigs⟩
        let repoW : CIRepo :=
          { repo with files := dictSet repo.files rolename md' }
        if rolename = "timestamp" ∨ rolename = "snapshot" then
          match ciOpen repo "root" with
          | .error e => .error e
          | .ok rootMd =>
            match mdDelegator rootMd with
            | none => .error "TypeError: verify_delegate"
            | some dlg =>
              match verifyDelegate repo.verify dlg rolename md' with
              | none => .error "ValueError: verify_delegate"
              | some false => .error "UnsignedMetadataError"
              | some true => .ok repoW
        else .ok repoW

/-- The online-role period sanity check of `_validate_role`: both period
annotations are required (`KeyError` when absent) and the check fails when
`signing_days < 1 or expiry_days <= signing_days`. -/
def onlinePeriodBad (role : DelegatedRoleM) : Except String Bool :=
  match assocLookup role.unrecInt expiryPeriodKey with
  | none => .error "KeyError: x-tuf-on-ci-expiry-period"
  | some expiryDays =>
    match assocLookup role.unrecInt signingPeriodKey with
    | none => .error "KeyError: x-tuf-on-ci-signing-period"
    | some signingDays =>
      .ok (decide (signingDays < 1) || decide (expiryDays ≤ signingDays))

/-- The final step of `_validate_role`: `delegator.verify_delegate`, with
`UnsignedMetadataError` caught and turned into `(False, None)`. -/
def ciValidateDelegate (verify : KeyM → String → SignedM → Bool)
    (delegator : MetadataM) (rolename : String) (md : MetadataM) :
    Except String (Bool × Option ValidationMsg) :=
  match mdDelegator delegator with
  | none => .error "TypeError: verify_delegate"
  | some dlg =>
    match verifyDelegate verify dlg rolename md with
    | none => .error "ValueError: verify_delegate"
    | some true => .ok (true, none)
    | some false => .ok (false, none)

/-- `CIRepository._validate_role`: validity of a role plus an optional
message, in source order: version growth on payload change, expiry within
the expiry period, the Root-specific checks (consistent snapshot, version
exactly known-good plus one, identical timestamp/snapshot delegations,
online period sanity), and finally threshold verification by the
delegator. -/
def ciValidateRole (repo : CIRepo) (delegator : MetadataM) (rolename : String) :
    Except String (Bool × Option ValidationMsg) :=
  match ciOpen repo rolename with
  | .error e => .error e
  | .ok md =>
    let prev := openPrev repo rolename
    let versionBad :=
      match prev with
      | some p =>
        decide (p.signed ≠ md.signed) &&
          decide (md.signed.version ≤ p.signed.version)
      | none => false
    if versionBad then
      .ok (false, some (.badVersion md.signed.version rolename))
    else
      match assocLookup md.signed.unrecInt expiryPeriodKey with
      | none => .error "KeyError: x-tuf-on-ci-expiry-period"
      | some days =>
        if repo.now + days * 86400 < md.signed.expires then
          .ok (false, some (.expiryTooFar days))
        else
          match md.signed.payload with
          | .root r =>
            if ¬r.consistentSnapshot then
              .ok (false, some .noConsistentSnapshot)
            else
              let rootVersionBad :=
                match prev with
                | some p =>
                  decide (p.signed ≠ md.signed) &&
                    decide (md.signed.version ≠ p.signed.version + 1)
                | none => false
              if rootVersionBad then
                .ok (false, some (.badRootVersion md.signed.version))
              else
                match assocLookup r.roles "timestamp",
                    assocLookup r.roles "snapshot" with
                | some tsRole, some snRole =>
                  if tsRole.keyids ≠ snRole.keyids ∨
                      tsRole.threshold ≠ snRole.threshold then
                    .ok (false, some .onlineSignersDiffer)
                  else
                    match onlinePeriodBad tsRole with
                    | .error e => .error e
                    | .ok true => .ok (false, some .onlinePeriodInsane)
                    | .ok false =>
                      match onlinePeriodBad snRole with
                      | .error e => .error e
                      | .ok true => .ok (false, some .onlinePeriodInsane)
                      | .ok false =>
                        ciValidateDelegate repo.verify delegator rolename md
                | _, _ => .error "ValueError: get_delegated_role"
          | _ => ciValidateDelegate repo.verify delegator rolename md

/-- `CIRepository._get_target_changes`: diff the signing-event targets of a
role against the known-good targets, producing ADDED/MODIFIED entries in
one pass (removing the seen paths from the known-good dict) followed by a
REMOVED entry for each leftover. -/
def ciGetTargetChanges (repo : CIRepo) (rolename : String) :
    Except String (List TargetStateM) :=
  if rolename = "root" ∨ rolename = "timestamp" ∨ rolename = "snapshot" then
    .ok []
  else
    match ciKnownGoodTargets repo rolename with
    | .error e => .error e
    | .ok kg =>
      match ciTargetsPayload repo rolename with
      | .error e => .error e
      | .ok t =>
        let step :=
          t.targets.foldl
            (fun (acc : List TargetStateM × List (String × TargetFileM)) ptf =>
              match assocLookup acc.2 ptf.1 with
              | none => (acc.1 ++ [⟨ptf.1, ptf.2, .added⟩], acc.2)
              | some old =>
                if ptf.2 ≠ old then
                  (acc.1 ++ [⟨ptf.1, ptf.2, .modified⟩], dictDel acc.2 ptf.1)
                else (acc.1, dictDel acc.2 ptf.1))
            ([], kg.targets)
        .ok (step.1 ++ step.2.map fun ptf => ⟨ptf.1, ptf.2, .removed⟩)

/-- `CIRepository._get_signing_status`: the signing status of a role against
either the signing-event delegator or (for root) the known-good delegator;
`none` only in known-good mode when the role is not root or there is no
known-good root yet. Signature verification failures and missing
signatures land in `missing`; a non-empty invite set short-circuits
validation to `valid = False`. -/
def ciGetSigningStatus (repo : CIRepo) (rolename : String) (knownGood : Bool) :
    Except String (Option SigningStatusM) :=
  match ciOpen repo rolename with
  | .error e => .error e
  | .ok md =>
    let delegatorE : Except String (Option MetadataM) :=
      if knownGood then
        .ok (if rolename = "root" then openPrev repo "root" else none)
      else if rolename = "root" ∨ rolename = "targets" then
        (ciOpen repo "root").map some
      else
        (ciOpen repo "targets").map some
    match delegatorE with
    | .error e => .error e
    | .ok none => .ok none
    | .ok (some delegator) =>
      let delegationNames : List String :=
        if rolename = "root" then ["root", "targets"]
        else if rolename = "targets" then
          match md.signed.payload with
          | .targets t =>
            match t.delegations with
            | some d => d.roles.map Prod.fst
            | none => []
          | _ => []
        else []
      let invites := delegationNames.foldl
        (fun acc name => setUnion acc (invitedSignersForRole repo.invites name))
        []
      match mdDelegator delegator with
      | none => .error "AttributeError: get_delegated_role"
      | some dlg =>
        match dlg.getDelegatedRole rolename with
        | none => .error "ValueError: get_delegated_role"
        | some role =>
          match ciGetKeys repo rolename knownGood with
          | .error e => .error e
          | .ok keys =>
            let sigsE : Except String (List String × List String) :=
              keys.foldlM
                (fun acc key =>
                  match assocLookup key.unrec keyownerTag with
                  | none => .error "KeyError: x-tuf-on-ci-keyowner"
                  | some keyowner =>
                    let ok :=
                      match assocLookup md.signatures key.keyid with
                      | none => false
                      | some sig => repo.verify key sig md.signed
                    .ok (if ok then (setInsert acc.1 keyowner, acc.2)
                         else (acc.1, setInsert acc.2 keyowner)))
                ([], [])
            match sigsE with
            | .error e => .error e
            | .ok (sigs, missingSigs) =>
              match ciGetTargetChanges repo rolename with
              | .error e => .error e
              | .ok targetChanges =>
                let validE : Except String (Bool × Option ValidationMsg) :=
                  if invites.isEmpty then
                    ciValidateRole repo delegator rolename
                  else .ok (false, none)
                match validE with
                | .error e => .error e
                | .ok (valid, msg) =>
                  .ok (some ⟨invites, sigs, missingSigs, role.threshold,
                             targetChanges, valid, msg⟩)

/-- `CIRepository.status`: online roles are rejected up front; otherwise
the pair of the signing-event status and the optional known-good status. -/
def ciStatus (repo : CIRepo) (rolename : String) :
    Except String (SigningStatusM × Option SigningStatusM) :=
  if rolename = "timestamp" ∨ rolename = "snapshot" then
    .error "ValueError: Not supported for online metadata"
  else
    match ciGetSigningStatus repo rolename true with
    | .error e => .error e
    | .ok knownGoodStatus =>
      match ciGetSigningStatus repo rolename false with
      | .error e => .error e
      | .ok none => .error "assert signing_event_status is not None"
      | .ok (some signingEventStatus) =>
        .ok (signingEventStatus, knownGoodStatus)

/-- The pattern selection of `CIRepository._build_targets`: the top-level
`targets` role uses pattern `*`; a delegated role uses the paths declared
in the `targets` delegation when they are non-empty, else `*`. -/
def ciBuildPatterns (repo : CIRepo) (rolename : String) :
    Except String (List String) :=
  if rolename ≠ "targets" then
    match ciTargetsPayload repo "targets" with
    | .error e => .error e
    | .ok t =>
      match t.delegations with
      | some d =>
        match assocLookup d.roles rolename with
        | some role =>
          match role.paths with
          | some paths => .ok (if paths.isEmpty then ["*"] else paths)
          | none => .ok ["*"]
        | none => .ok ["*"]
      | none => .ok ["*"]
  else .ok ["*"]

/-- The glob loop of `CIRepository._build_targets`: for each pattern, for
each matching regular file, store a target entry under the file's path. -/
def globCollect (patterns : List String) (entries : List FSEntry) :
    List (String × TargetFileM) :=
  patterns.foldl
    (fun acc pattern =>
      entries.foldl
        (fun acc e =>
          if globMatch pattern e.path && e.isFile then
            dictSet acc e.path (targetFileFromFile e)
          else acc)
        acc)
    []

/-- `CIRepository._build_targets`: glob each pattern of the role over the
artifact directory and build the dict of target entries for the matching
regular files. -/
def ciBuildTargets (repo : CIRepo) (entries : List FSEntry) (rolename : String) :
    Except String (List (String × TargetFileM)) :=
  match ciBuildPatterns repo rolename with
  | .error e => .error e
  | .ok patterns => .ok (globCollect patterns entries)

/-- The custom-field carry loop of `update_targets`: for every path of the
current dict that survives into the new dict, the new entry keeps the
current entry's unrecognized fields (the source mutates `new_tfiles[path]`
while iterating the current dict; current dicts have unique keys, so a
lookup per new entry is equivalent). -/
def keepCustomFields (cur new : List (String × TargetFileM)) :
    List (String × TargetFileM) :=
  new.map fun ptf =>
    (ptf.1,
     match assocLookup cur ptf.1 with
     | some old => { ptf.2 with unrec := old.unrec }
     | none => ptf.2)

/-- `CIRepository.update_targets`: reconcile the artifact directory into the
role's targets dict, keeping the unrecognized fields of surviving entries.
When nothing changed, the edit aborts — nothing is written and the
function falls off the `with` block returning a falsy `None`; otherwise the
new dict replaces the role's targets and `close` commits it. -/
def ciUpdateTargets (repo : CIRepo) (rolename : String)
    (entries : List FSEntry) : Except String (CIRepo × Bool) :=
  if rolename = "root" ∨ rolename = "timestamp" ∨ rolename = "snapshot" then
    .ok (repo, false)
  else
    match ciBuildTargets repo entries rolename with
    | .error e => .error e
    | .ok newTfiles =>
      match ciOpen repo rolename with
      | .error e => .error e
      | .ok md =>
        match md.signed.payload with
        | .targets t =>
          let newTfiles' := keepCustomFields t.targets newTfiles
          if dictEq t.targets newTfiles' then
            .ok (repo, false)
          else
            let md' : MetadataM :=
              { md with signed :=
                { md.signed with payload :=
                  PayloadM.targets { t with targets := newTfiles' } } }
            match ciClose repo rolename md' with
            | .error e => .error e
            | .ok repoW => .ok (repoW, true)
        | _ => .error "assert isinstance(signed, Targets)"

/-! ## `SignerRepository` (`signer/tuf_on_ci_sign/_signer_repository.py`) -/

/-- The state a `SignerRepository` operates on: the signing-event metadata
directory, the `root_history` archive (keyed by version), the known-good
directory (always configured for the signer tool), the invites of
`.signing-event-state`, the user, their `unsigned` role set, and the
current time. -/
structure SignerRepo where
  files : List (String × MetadataM)
  rootHistory : List (Nat × MetadataM)
  prevFiles : List (String × MetadataM)
  invites : List (String × List String)
  userName : String
  unsigned : List String
  now : Int

/-- `build_paths`: the delegated path patterns
`rolename/*`, `rolename/*/*`, ... down to the given depth. -/
def buildPathsGo (pattern : String) : Nat → List String
  | 0 => []
  | n + 1 => pattern :: buildPathsGo (pattern ++ "/*") n

/-- `build_paths(rolename, depth)`. -/
def buildPaths (rolename : String) (depth : Nat) : List String :=
  buildPathsGo (rolename ++ "/*") depth

/-- `SignerRepository.MAX_DEPTH`. -/
def signerMaxDepth : Nat := 4

/-- `SignerRepository.open`: return stored metadata; a missing online role
is an error (`ValueError`), a missing root becomes a fresh `Metadata(Root())`
and any other missing role a fresh `Metadata(Targets())` (python-tuf
defaults: version 1, expires at creation time), with both period
annotations zeroed. -/
def signerOpen (repo : SignerRepo) (role : String) : Except String MetadataM :=
  match assocLookup repo.files role with
  | some md => .ok md
  | none =>
    if role = "snapshot" ∨ role = "timestamp" then
      .error ("Cannot create " ++ role)
    else
      let payload :=
        if role = "root" then PayloadM.root defaultRoot
        else PayloadM.targets defaultTargets
      .ok ⟨⟨1, repo.now, [(expiryPeriodKey, 0), (signingPeriodKey, 0)],
            payload⟩, []⟩

/-- `SignerRepository._known_good_version`: version of the known-good role
file, or 0 when absent. -/
def signerKnownGoodVersion (repo : SignerRepo) (rolename : String) : Nat :=
  match assocLookup repo.prevFiles rolename with
  | some md => md.signed.version
  | none => 0

/-- `SignerRepository._known_good_root`: known-good Root, or an empty
default `Root()` for comparison when absent. -/
def signerKnownGoodRoot (repo : SignerRepo) : Except String RootPayloadM :=
  match assocLookup repo.prevFiles "root" with
  | some md =>
    match md.signed.payload with
    | .root r => .ok r
    | _ => .error "assert isinstance(md.signed, Root)"
  | none => .ok defaultRoot

/-- `SignerRepository._known_good_targets`: known-good Targets of a role, or
an empty default `Targets()` when absent. -/
def signerKnownGoodTargets (repo : SignerRepo) (rolename : String) :
    Except String TargetsPayloadM :=
  match assocLookup repo.prevFiles rolename with
  | some md =>
    match md.signed.payload with
    | .targets t => .ok t
    | _ => .error "assert isinstance(md.signed, Targets)"
  | none => .ok defaultTargets

/-- `Repository.root()` for the signer repository. -/
def signerRootPayload (repo : SignerRepo) : Except String RootPayloadM :=
  match signerOpen repo "root" with
  | .error e => .error e
  | .ok md =>
    match md.signed.payload with
    | .root r => .ok r
    | _ => .error "assert isinstance(signed, Root)"

/-- `Repository.targets(rolename)` for the signer repository. -/
def signerTargetsPayload (repo : SignerRepo) (rolename : String) :
    Except String TargetsPayloadM :=
  match signerOpen repo rolename with
  | .error e => .error e
  | .ok md =>
    match md.signed.payload with
    | .targets t => .ok t
    | _ => .error "assert isinstance(signed, Targets)"

/-- The keyid loop of `SignerRepository._get_keys`: the whole loop runs in
one `try`, so a key missing from the key map (`ValueError`) aborts the loop
and the keys collected so far are returned; in known-good mode keys with
neither a keyowner nor an online-uri annotation are skipped. -/
def signerKeyLoop (delegator : DelegatorM) (knownGood : Bool) :
    List String → List KeyM → List KeyM
  | [], acc => acc
  | keyid :: rest, acc =>
    match delegator.getKey keyid with
    | none => acc
    | some key =>
      if knownGood && (assocLookup key.unrec keyownerTag).isNone &&
          (assocLookup key.unrec onlineUriTag).isNone then
        signerKeyLoop delegator knownGood rest acc
      else signerKeyLoop delegator knownGood rest (acc ++ [key])

/-- `SignerRepository._get_keys`: public keys for a delegated role; a role
that is not delegated yields no keys (the `ValueError` is caught). -/
def signerGetKeys (repo : SignerRepo) (role : String) (knownGood : Bool) :
    Except String (List KeyM) :=
  let delegatorE : Except String DelegatorM :=
    if role = "root" ∨ role = "timestamp" ∨ role = "snapshot" ∨
        role = "targets" then
      if knownGood then (signerKnownGoodRoot repo).map .root
      else (signerRootPayload repo).map .root
    else
      if knownGood then (signerKnownGoodTargets repo "targets").map .targets
      else (signerTargetsPayload repo "targets").map .targets
  match delegatorE with
  | .error e => .error e
  | .ok delegator =>
    match delegator.getDelegatedRole role with
    | none => .ok []
    | some r => .ok (signerKeyLoop delegator knownGood r.keyids [])

/-- `SignerRepository._get_delegated_rolenames`: the delegations of a role
document (top-level roles for Root, delegated roles for Targets). -/
def signerGetDelegatedRolenames (md : MetadataM) : List String :=
  match md.signed.payload with
  | .root r => r.roles.map Prod.fst
  | .targets t =>
    match t.delegations with
    | some d => d.roles.map Prod.fst
    | none => []
  | _ => []

/-- `SignerRepository.close`: set the version to the known-good version plus
one, set expiry from the payload's expiry-period annotation, wipe all
signatures and store one empty placeholder signature per key bound to the
role (for root: known-good keys plus the keys of the version being written),
update the user's `unsigned` bookkeeping, and write the file (for root also
the versioned `root_history` copy). -/
def signerClose (repo : SignerRepo) (role : String) (md : MetadataM) :
    Except String SignerRepo :=
  let version := signerKnownGoodVersion repo role + 1
  match assocLookup md.signed.unrecInt expiryPeriodKey with
  | none => .error "KeyError: x-tuf-on-ci-expiry-period"
  | some days =>
    let signed' : SignedM :=
      { md.signed with version := version,
                       expires := repo.now + days * 86400 }
    let md' : MetadataM := { md with signed := signed' }
    let delegated := signerGetDelegatedRolenames md'
    let openInvites :=
      repo.invites.any fun kv => kv.2.any fun r => delegated.contains r
    let keysE : Except String (List KeyM) :=
      if role = "root" then
        match signerGetKeys repo role true with
        | .error e => .error e
        | .ok kgKeys =>
          match md'.signed.payload with
          | .root r =>
            match assocLookup r.roles "root" with
            | none => .error "ValueError: get_delegated_role"
            | some rr =>
              rr.keyids.foldlM
                (fun keys keyid =>
                  if keys.any fun key => keyid = key.keyid then .ok keys
                  else
                    match assocLookup r.keys keyid with
                    | none => .error "ValueError: get_key"
                    | some key => .ok (keys ++ [key]))
                kgKeys
          | _ => .error "assert isinstance(md.signed, Root)"
      else signerGetKeys repo role false
    match keysE with
    | .error e => .error e
    | .ok keys =>
      let unsigned1 := repo.unsigned.filter fun r => decide (r ≠ role)
      let sigs := keys.foldl (fun sigs key => dictSet sigs key.keyid "") []
      let unsigned2 := keys.foldl
        (fun uns key =>
          if assocLookup key.unrec keyownerTag = some repo.userName &&
              !openInvites then
            setInsert uns role
          else uns)
        unsigned1
      let md'' : MetadataM := { md' with signatures := sigs }
      let rootHistory' :=
        if role = "root" then dictSet repo.rootHistory version md''
        else repo.rootHistory
      .ok { repo with
              files := dictSet repo.files role md'',
              rootHistory := rootHistory',
              unsigned := unsigned2 }

/-! ## Helper lemmas -/

/-- Writing a key and reading it back. -/
theorem assocLookup_dictSet_self {κ α : Type} [DecidableEq κ]
    (xs : List (κ × α)) (k : κ) (v : α) :
    assocLookup (dictSet xs k v) k = some v := by
  induction xs with
  | nil => simp [dictSet, assocLookup]
  | cons hd tl ih =>
    by_cases h : hd.1 = k
    · simp [dictSet, assocLookup, h]
    · simp [dictSet, assocLookup, h, ih]

/-- Reading another key after a write. -/
theorem assocLookup_dictSet_other {κ α : Type} [DecidableEq κ]
    (xs : List (κ × α)) (k k' : κ) (v : α) (h : k ≠ k') :
    assocLookup (dictSet xs k v) k' = assocLookup xs k' := by
  induction xs with
  | nil => simp [dictSet, assocLookup, h]
  | cons hd tl ih =>
    by_cases hk : hd.1 = k
    · simp [dictSet, assocLookup, hk, h]
    · simp [dictSet, assocLookup, hk, ih]

/-- A key is present after a write iff it is the written key or it was
present before. -/
theorem isSome_assocLookup_dictSet {κ α : Type} [DecidableEq κ]
    (xs : List (κ × α)) (k p : κ) (v : α) :
    (assocLookup (dictSet xs k v) p).isSome = true ↔
      (k = p ∨ (assocLookup xs p).isSome = true) := by
  by_cases h : k = p
  · subst h
    simp [assocLookup_dictSet_self]
  · rw [assocLookup_dictSet_other xs k p v h]
    simp [h]

/-- The inner glob loop of `_build_targets` adds exactly the paths of the
regular files matching the pattern. -/
theorem globCollect_inner (pattern : String) (entries : List FSEntry)
    (acc : List (String × TargetFileM)) (p : String) :
    (assocLookup
        (entries.foldl
          (fun acc e =>
            if globMatch pattern e.path && e.isFile then
              dictSet acc e.path (targetFileFromFile e)
            else acc)
          acc) p).isSome = true ↔
      ((assocLookup acc p).isSome = true ∨
        ∃ e, e ∈ entries ∧ e.path = p ∧ e.isFile = true ∧
          globMatch pattern p = true) := by
  induction entries generalizing acc with
  | nil => simp
  | cons e es ih =>
    simp only [List.foldl_cons]
    rw [ih]
    by_cases hc : (globMatch pattern e.path && e.isFile) = true
    · rw [if_pos hc]
      rw [isSome_assocLookup_dictSet]
      simp only [Bool.and_eq_true] at hc
      constructor
      · rintro (⟨heq | hacc⟩ | ⟨e', he', hrest⟩)
        · exact Or.inr ⟨e, List.mem_cons_self e es, heq, hc.2, heq ▸ hc.1⟩
        · exact Or.inl hacc
        · exact Or.inr ⟨e', List.mem_cons_of_mem e he', hrest⟩
      · rintro (hacc | ⟨e', he', hpath, hfile, hmatch⟩)
        · exact Or.inl (Or.inr hacc)
        · rcases List.mem_cons.mp he' with rfl | he''
          · exact Or.inl (Or.inl hpath)
          · exact Or.inr ⟨e', he'', hpath, hfile, hmatch⟩
    · rw [if_neg hc]
      constructor
      · rintro (hacc | ⟨e', he', hrest⟩)
        · exact Or.inl hacc
        · exact Or.inr ⟨e', List.mem_cons_of_mem e he', hrest⟩
      · rintro (hacc | ⟨e', he', hpath, hfile, hmatch⟩)
        · exact Or.inl hacc
        · rcases List.mem_cons.mp he' with rfl | he''
          · exact absurd (by simp [hpath ▸ hmatch, hfile] :
              (globMatch pattern e'.path && e'.isFile) = true) hc
          · exact Or.inr ⟨e', he'', hpath, hfile, hmatch⟩

/-- The glob loop of `_build_targets` over a pattern list, with a general
accumulator. -/
theorem globCollect_gen (patterns : List String) (entries : List FSEntry)
    (acc : List (String × TargetFileM)) (p : String) :
    (assocLookup
        (patterns.foldl
          (fun acc pattern =>
            entries.foldl
              (fun acc e =>
                if globMatch pattern e.path && e.isFile then
                  dictSet acc e.path (targetFileFromFile e)
                else acc)
              acc)
          acc) p).isSome = true ↔
      ((assocLookup acc p).isSome = true ∨
        ∃ e, e ∈ entries ∧ e.path = p ∧ e.isFile = true ∧
          ∃ pat, pat ∈ patterns ∧ globMatch pat p = true) := by
  induction patterns generalizing acc with
  | nil => simp
  | cons pat pats ih =>
    simp only [List.foldl_cons]
    rw [ih, globCollect_inner]
    constructor
    · rintro (⟨hacc | ⟨e, he, hp, hf, hm⟩⟩ | ⟨e, he, hp, hf, pat', hpat', hm⟩)
      · exact Or.inl hacc
      · exact Or.inr ⟨e, he, hp, hf, pat, List.mem_cons_self pat pats, hm⟩
      · exact Or.inr ⟨e, he, hp, hf, pat', List.mem_cons_of_mem pat hpat', hm⟩
    · rintro (hacc | ⟨e, he, hp, hf, pat', hpat', hm⟩)
      · exact Or.inl (Or.inl hacc)
      · rcases List.mem_cons.mp hpat' with rfl | hpat''
        · exact Or.inl (Or.inr ⟨e, he, hp, hf, hm⟩)
        · exact Or.inr ⟨e, he, hp, hf, pat', hpat'', hm⟩

/-- When the online-period sanity check passes, both period annotations are
present, the signing period is at least one day and the expiry period
exceeds it. -/
theorem onlinePeriodBad_ok_false (role : DelegatedRoleM)
    (h : onlinePeriodBad role = .ok false) :
    ∃ e s, assocLookup role.unrecInt expiryPeriodKey = some e ∧
      assocLookup role.unrecInt signingPeriodKey = some s ∧
      1 ≤ s ∧ s < e := by
  unfold onlinePeriodBad at h
  split at h
  · simp at h
  · split at h
    · simp at h
    · injection h with h'
      simp only [Bool.or_eq_false_iff, decide_eq_false_iff_not] at h'
      exact ⟨_, _, by assumption, by assumption, by omega, by omega⟩

/-- The keys after a write are the written key and the previous keys. -/
theorem mem_keys_dictSet {κ α : Type} [DecidableEq κ]
    (xs : List (κ × α)) (k p : κ) (v : α) :
    p ∈ (dictSet xs k v).map Prod.fst ↔ p = k ∨ p ∈ xs.map Prod.fst := by
  induction xs with
  | nil => simp [dictSet]
  | cons hd tl ih =>
    by_cases h : hd.1 = k
    · subst h
      simp [dictSet]
    · simp [dictSet, h, ih]
      tauto

/-- A write keeps the keys of a dict without duplicate keys duplicate
free. -/
theorem nodupKeys_dictSet {κ α : Type} [DecidableEq κ]
    (xs : List (κ × α)) (k : κ) (v : α)
    (h : (xs.map Prod.fst).Nodup) : ((dictSet xs k v).map Prod.fst).Nodup := by
  induction xs with
  | nil => simp [dictSet]
  | cons hd tl ih =>
    simp only [List.map_cons, List.nodup_cons] at h
    by_cases hk : hd.1 = k
    · simp only [dictSet, if_pos hk, List.map_cons, List.nodup_cons]
      exact ⟨h.1, h.2⟩
    · simp only [dictSet, if_neg hk, List.map_cons, List.nodup_cons]
      refine ⟨fun hmem => ?_, ih h.2⟩
      rcases (mem_keys_dictSet tl k hd.1 v).mp hmem with rfl | hmem'
      · exact hk rfl
      · exact h.1 hmem'

/-- The glob loop of `_build_targets` never produces duplicate keys. -/
theorem nodupKeys_globCollect (patterns : List String)
    (entries : List FSEntry) :
    ((globCollect patterns entries).map Prod.fst).Nodup := by
  have inner : ∀ (pattern : String) (es : List FSEntry)
      (acc : List (String × TargetFileM)), (acc.map Prod.fst).Nodup →
      ((es.foldl
        (fun acc e =>
          if globMatch pattern e.path && e.isFile then
            dictSet acc e.path (targetFileFromFile e)
          else acc)
        acc).map Prod.fst).Nodup := by
    intro pattern es
    induction es with
    | nil => intro acc h; simpa using h
    | cons e es' ih =>
      intro acc h
      simp only [List.foldl_cons]
      by_cases hc : (globMatch pattern e.path && e.isFile) = true
      · rw [if_pos hc]
        exact ih _ (nodupKeys_dictSet _ _ _ h)
      · rw [if_neg hc]
        exact ih _ h
  have outer : ∀ (pats : List String) (acc : List (String × TargetFileM)),
      (acc.map Prod.fst).Nodup →
      ((pats.foldl
        (fun acc pattern =>
          entries.foldl
            (fun acc e =>
              if globMatch pattern e.path && e.isFile then
                dictSet acc e.path (targetFileFromFile e)
              else acc)
            acc)
        acc).map Prod.fst).Nodup := by
    intro pats
    induction pats with
    | nil => intro acc h; simpa using h
    | cons pat pats' ih =>
      intro acc h
      simp only [List.foldl_cons]
      exact ih _ (inner pat entries acc h)
  exact outer patterns [] (by simp)

/-- Lookup into the carried dict: the carry preserves keys and rewrites
values pointwise. -/
theorem assocLookup_keepCustomFields (cur new : List (String × TargetFileM))
    (p : String) :
    assocLookup (keepCustomFields cur new) p =
      (assocLookup new p).map fun v =>
        match assocLookup cur p with
        | some old => { v with unrec := old.unrec }
        | none => v := by
  induction new with
  | nil => simp [keepCustomFields, assocLookup]
  | cons hd tl ih =>
    by_cases h : hd.1 = p
    · subst h
      simp [keepCustomFields, assocLookup]
    · simpa [keepCustomFields, assocLookup, h] using ih

/-- In a dict without duplicate keys, every member is found by lookup. -/
theorem assocLookup_of_mem_nodup {κ α : Type} [DecidableEq κ]
    (xs : List (κ × α)) (p : κ) (v : α)
    (hnd : (xs.map Prod.fst).Nodup) (hmem : (p, v) ∈ xs) :
    assocLookup xs p = some v := by
  induction xs with
  | nil => simp at hmem
  | cons hd tl ih =>
    simp only [List.map_cons, List.nodup_cons] at hnd
    rcases List.mem_cons.mp hmem with rfl | hmem'
    · simp [assocLookup]
    · have hne : hd.1 ≠ p := by
        intro he
        exact hnd.1 (he ▸ List.mem_map_of_mem Prod.fst hmem')
      simp only [assocLookup, if_neg hne]
      exact ih hnd.2 hmem'

/-- Python dict equality is reflexive on dicts without duplicate keys. -/
theorem dictEq_self_of_nodupKeys {κ α : Type} [DecidableEq κ] [DecidableEq α]
    (xs : List (κ × α)) (hnd : (xs.map Prod.fst).Nodup) :
    dictEq xs xs = true := by
  simp only [dictEq, Bool.and_self, List.all_eq_true]
  intro kv hkv
  simp [assocLookup_of_mem_nodup xs kv.1 kv.2 hnd hkv]

/-- The carry preserves the keys of the new dict. -/
theorem keys_keepCustomFields (cur new : List (String × TargetFileM)) :
    (keepCustomFields cur new).map Prod.fst = new.map Prod.fst := by
  simp [keepCustomFields]

/-- Carrying custom fields from the already-carried dict changes nothing:
the second reconciliation rebuilds exactly the stored dict. -/
theorem keepCustomFields_idem (cur new : List (String × TargetFileM))
    (hnd : (new.map Prod.fst).Nodup) :
    keepCustomFields (keepCustomFields cur new) new =
      keepCustomFields cur new := by
  refine List.map_congr_left fun ptf hmem => ?_
  have hlook : assocLookup new ptf.1 = some ptf.2 :=
    assocLookup_of_mem_nodup new ptf.1 ptf.2 hnd hmem
  rw [assocLookup_keepCustomFields, hlook]
  cases assocLookup cur ptf.1 <;> rfl

/-- Writing one role file leaves `open` of a different role unchanged. -/
theorem ciOpen_dictSet_other (repo : CIRepo) (k role : String)
    (md' : MetadataM) (h : k ≠ role) :
    ciOpen { repo with files := dictSet repo.files k md' } role =
      ciOpen repo role := by
  unfold ciOpen
  rw [assocLookup_dictSet_other _ _ _ _ h]

/-- Writing the reconciled role back does not change the patterns used by a
following reconciliation of the same role. -/
theorem ciBuildTargets_dictSet_role (repo : CIRepo) (rolename : String)
    (entries : List FSEntry) (md' : MetadataM) :
    ciBuildTargets { repo with files := dictSet repo.files rolename md' }
        entries rolename = ciBuildTargets repo entries rolename := by
  unfold ciBuildTargets ciBuildPatterns
  by_cases hr : rolename = "targets"
  · subst hr
    simp
  · rw [if_pos hr, if_pos hr]
    unfold ciTargetsPayload
    rw [ciOpen_dictSet_other repo rolename "targets" md' hr]

/-- A successful `CIRepository.close` writes exactly one file: the closed
role, with the payload unchanged. -/
theorem ciClose_ok_shape (repo : CIRepo) (rolename : String) (md : MetadataM)
    (repo' : CIRepo) (h : ciClose repo rolename md = .ok repo') :
    ∃ stored, stored.signed.payload = md.signed.payload ∧
      repo' = { repo with files := dictSet repo.files rolename stored } := by
  simp only [ciClose] at h
  split at h
  · exact absurd h (by simp)
  · split at h
    · exact absurd h (by simp)
    · split at h
      · exact absurd h (by simp)
      · split at h
        · split at h
          · exact absurd h (by simp)
          · split at h
            · exact absurd h (by simp)
            · split at h
              · exact absurd h (by simp)
              · exact absurd h (by simp)
              · injection h with h'
                refine ⟨_, ?_, h'.symm⟩
                rfl
        · injection h with h'
          refine ⟨_, ?_, h'.symm⟩
          rfl

/-- `ciValidateDelegate` returns a boolean verdict (never an error) when the
delegator payload delegates and the delegation exists. -/
theorem ciValidateDelegate_ok (verify : KeyM → String → SignedM → Bool)
    (delegator : MetadataM) (rolename : String) (md : MetadataM)
    (d : DelegatorM) (role : DelegatedRoleM)
    (hd : mdDelegator delegator = some d)
    (hrole : DelegatorM.getDelegatedRole d rolename = some role) :
    ∃ b msg, ciValidateDelegate verify delegator rolename md = .ok (b, msg) := by
  simp only [ciValidateDelegate, hd, verifyDelegate, hrole]
  split
  · next heq => exact absurd heq (by simp)
  · exact ⟨true, none, rfl⟩
  · exact ⟨false, none, rfl⟩

/-- When `_get_signing_status` (signing-event mode) succeeds with no
pending invites, the returned validity and message are exactly the verdict
of `_validate_role` against the delegator the status engine used (root for
root/targets, targets otherwise). -/
theorem getSigningStatus_surfaces (repo : CIRepo) (rolename : String)
    (s : SigningStatusM) (dmd : MetadataM) (msg : Option ValidationMsg)
    (h : ciGetSigningStatus repo rolename false = .ok (some s))
    (hinv : s.invites = [])
    (hdel : ciOpen repo
      (if rolename = "root" ∨ rolename = "targets" then "root"
       else "targets") = .ok dmd)
    (hval : ciValidateRole repo dmd rolename = .ok (false, msg)) :
    s.valid = false ∧ s.message = msg := by
  simp only [ciGetSigningStatus, Bool.false_eq_true, if_false] at h
  by_cases hc : rolename = "root" ∨ rolename = "targets"
  · rw [if_pos hc] at hdel
    rw [if_pos hc, hdel] at h
    simp only [Except.map] at h
    repeat' split at h
    all_goals simp_all [List.isEmpty_iff]
    all_goals (cases h; simp_all)
  · rw [if_neg hc] at hdel
    rw [if_neg hc, hdel] at h
    simp only [Except.map] at h
    repeat' split at h
    all_goals simp_all [List.isEmpty_iff]
    all_goals (cases h; simp_all)

/-! ## Claims -/

/-- C10: for both online role names, `CIRepository.status` raises
`ValueError` without reading any metadata — it fails identically on every
repository state, including one with no files at all. -/
theorem claim_C10_status_raises_for_online_roles (repo : CIRepo) :
    ciStatus repo "timestamp" =
        .error "ValueError: Not supported for online metadata" ∧
      ciStatus repo "snapshot" =
        .error "ValueError: Not supported for online metadata" :=
  ⟨rfl, rfl⟩

/-- C3: keyids set through `set_key_field` are the lowercase hex SHA-256 of
the canonical JSON of the key object including its custom annotations; in
the concrete scenario of the spec, the SSlib ed25519 key with keyid "abcd"
and public value "abcde" gets keyid
"3e5e819246b51532a5533efb5d7c3e18ca8e7a7f4d2267644c3e2298ac81de18" after
`set_key_field("keyowner", "@testuser")`, which differs from the original
keyid. -/
theorem claim_C3_keyid_derivation :
    (∀ key name value,
      (setKeyField key name value).keyid =
        sha256Hex (utf8Bytes (encodeCanonical (KeyM.toDict
          { key with
              unrec := dictSet key.unrec ("x-tuf-on-ci-" ++ name) value })))) ∧
    (setKeyField ⟨"abcd", "ed25519", "ed25519", [("public", "abcde")], []⟩
        "keyowner" "@testuser").keyid =
      "3e5e819246b51532a5533efb5d7c3e18ca8e7a7f4d2267644c3e2298ac81de18" ∧
    (setKeyField ⟨"abcd", "ed25519", "ed25519", [("public", "abcde")], []⟩
        "keyowner" "@testuser").keyid ≠ "abcd" := by
  refine ⟨fun key name value => ?_, by decide, by decide⟩
  simp only [setKeyField, calculateKeyid]

/-- C8 (counterexample): the claim says every absent role other than
timestamp/snapshot makes `open` fail; but `SignerRepository.open` of an
absent root returns a fresh `Metadata(Root())` (at version 1, not 0) rather
than an error. -/
theorem claim_C8_counterexample :
    signerOpen ⟨[], [], [], [], "@user", [], 0⟩ "root" =
      .ok ⟨⟨1, 0, [(expiryPeriodKey, 0), (signingPeriodKey, 0)],
            .root defaultRoot⟩, []⟩ ∧
    ¬∃ e, signerOpen ⟨[], [], [], [], "@user", [], 0⟩ "root" = .error e := by
  refine ⟨rfl, fun ⟨e, h⟩ => ?_⟩
  simp [signerOpen, assocLookup] at h

/-- C8 (amended): `CIRepository.open` behaves as the claim says — stored
document when present; fresh empty documents at version 0 for absent
timestamp/snapshot; an error for every other absent role. But
`SignerRepository.open` does the opposite for absent files: it errors on
the online roles and freshly initializes root (`Metadata(Root())`) and any
other role (`Metadata(Targets())`) at python-tuf's default version 1, with
zeroed period annotations. -/
theorem claim_C8_open_behavior :
    (∀ (repo : CIRepo) (role : String) (md : MetadataM),
        assocLookup repo.files role = some md → ciOpen repo role = .ok md) ∧
    (∀ repo : CIRepo, assocLookup repo.files "timestamp" = none →
        ciOpen repo "timestamp" = .ok ⟨⟨0, repo.now, [], .timestamp 0⟩, []⟩) ∧
    (∀ repo : CIRepo, assocLookup repo.files "snapshot" = none →
        ciOpen repo "snapshot" = .ok ⟨⟨0, repo.now, [], .snapshot []⟩, []⟩) ∧
    (∀ (repo : CIRepo) (role : String), assocLookup repo.files role = none →
        role ≠ "timestamp" → role ≠ "snapshot" →
        ciOpen repo role =
          .error ("Cannot create new " ++ role ++ " metadata")) ∧
    (∀ (repo : SignerRepo) (role : String) (md : MetadataM),
        assocLookup repo.files role = some md →
        signerOpen repo role = .ok md) ∧
    (∀ (repo : SignerRepo) (role : String),
        assocLookup repo.files role = none →
        role = "snapshot" ∨ role = "timestamp" →
        signerOpen repo role = .error ("Cannot create " ++ role)) ∧
    (∀ repo : SignerRepo, assocLookup repo.files "root" = none →
        signerOpen repo "root" =
          .ok ⟨⟨1, repo.now, [(expiryPeriodKey, 0), (signingPeriodKey, 0)],
                .root defaultRoot⟩, []⟩) ∧
    (∀ (repo : SignerRepo) (role : String),
        assocLookup repo.files role = none →
        role ≠ "snapshot" → role ≠ "timestamp" → role ≠ "root" →
        signerOpen repo role =
          .ok ⟨⟨1, repo.now, [(expiryPeriodKey, 0), (signingPeriodKey, 0)],
                .targets defaultTargets⟩, []⟩) := by
  refine ⟨fun repo role md h => ?_, fun repo h => ?_, fun repo h => ?_,
          fun repo role h h1 h2 => ?_, fun repo role md h => ?_,
          fun repo role h honline => ?_, fun repo h => ?_,
          fun repo role h h1 h2 h3 => ?_⟩
  · simp [ciOpen, h]
  · simp [ciOpen, h]
  · simp [ciOpen, h]
  · simp [ciOpen, h, h1, h2]
  · simp [signerOpen, h]
  · rcases honline with h' | h' <;> subst h' <;> simp [signerOpen, h]
  · simp [signerOpen, h]
  · simp [signerOpen, h, h1, h2, h3]

/-- C8 witness: the amended theorem applied at concrete inputs — a stored
role is returned as stored, a missing timestamp is freshly initialized at
version 0 by the CI repository, a missing delegated role is an error for
the CI repository, and a missing snapshot is an error for the signer
repository. -/
theorem claim_C8_open_behavior_witness :
    ciOpen ⟨[("targets", ⟨⟨7, 1, [], .targets defaultTargets⟩, []⟩)], none,
        [], 5, fun _ _ _ => true, fun _ _ => ""⟩ "targets" =
      .ok ⟨⟨7, 1, [], .targets defaultTargets⟩, []⟩ ∧
    ciOpen ⟨[], none, [], 5, fun _ _ _ => true, fun _ _ => ""⟩ "timestamp" =
      .ok ⟨⟨0, 5, [], .timestamp 0⟩, []⟩ ∧
    ciOpen ⟨[], none, [], 5, fun _ _ _ => true, fun _ _ => ""⟩ "myrole" =
      .error "Cannot create new myrole metadata" ∧
    signerOpen ⟨[], [], [], [], "@u", [], 7⟩ "snapshot" =
      .error "Cannot create snapshot" :=
  ⟨claim_C8_open_behavior.1 _ "targets" _ rfl,
   claim_C8_open_behavior.2.1 _ rfl,
   claim_C8_open_behavior.2.2.2.1 _ "myrole" rfl
     (by decide) (by decide),
   claim_C8_open_behavior.2.2.2.2.2.1 _ "snapshot" rfl (Or.inl rfl)⟩

/-- An online-role descriptor with sane periods, for concrete scenarios. -/
def sampleOnlineRole : DelegatedRoleM :=
  ⟨[], 1, none, false, [(expiryPeriodKey, 2), (signingPeriodKey, 1)]⟩

/-- A concrete root document at version 1. -/
def sampleRootMd : MetadataM :=
  ⟨⟨1, 6912000, [(expiryPeriodKey, 100)],
    .root ⟨true, [],
      [("root", defaultRole), ("timestamp", sampleOnlineRole),
       ("snapshot", sampleOnlineRole), ("targets", defaultRole)]⟩⟩, []⟩

/-- A concrete top-level targets document at version 1 with no targets. -/
def sampleTargetsMd : MetadataM :=
  ⟨⟨1, 6912000, [(expiryPeriodKey, 100), (signingPeriodKey, 50)],
    .targets ⟨[], none⟩⟩, []⟩

/-- A concrete CI repository whose signing-event state equals its known-good
state (both at version 1). -/
def sampleRepo : CIRepo :=
  ⟨[("root", sampleRootMd), ("targets", sampleTargetsMd)],
   some [("root", sampleRootMd), ("targets", sampleTargetsMd)],
   [], 0, fun _ _ _ => true, fun _ _ => "sig"⟩

/-- First artifact directory content: one file. -/
def c1Entries1 : List FSEntry := [⟨"a.txt", true, [97]⟩]

/-- Second artifact directory content: two files. -/
def c1Entries2 : List FSEntry := [⟨"a.txt", true, [97]⟩, ⟨"b.txt", true, [98]⟩]

/-- Two successive artifact edits in one signing event, each changing the
targets payload, committed through `CIRepository.close`; the result pairs
the committed version with the known-good version plus one. -/
def c1DoubleEditResult : Except String (Nat × Nat) :=
  match ciUpdateTargets sampleRepo "targets" c1Entries1 with
  | .error e => .error e
  | .ok (r1, _) =>
    match ciUpdateTargets r1 "targets" c1Entries2 with
    | .error e => .error e
    | .ok (r2, _) =>
      match assocLookup r2.files "targets" with
      | none => .error "targets metadata missing"
      | some out =>
        .ok (out.signed.version,
             (match openPrev r2 "targets" with
              | some p => p.signed.version
              | none => 0) + 1)

/-- C1 (counterexample): after two payload-changing edits of `targets` in
one signing event, `CIRepository.close` commits version 3 while the
known-good version plus one is 2 — the claim fails for the CI
implementation. -/
theorem claim_C1_counterexample :
    c1DoubleEditResult = .ok (3, 2) ∧ (3 : Nat) ≠ 2 := ⟨rfl, by decide⟩

/-- C1 (amended): `SignerRepository.close` always commits exactly the
known-good version plus one (whether or not the payload changed), but
`CIRepository.close` increments the currently stored version by one, which
equals the known-good version plus one only when the current version equals
the known-good version. -/
theorem claim_C1_commit_versions :
    (∀ (repo : SignerRepo) (role : String) (md : MetadataM)
        (repo' : SignerRepo),
        signerClose repo role md = .ok repo' →
        ∃ out, assocLookup repo'.files role = some out ∧
          out.signed.version = signerKnownGoodVersion repo role + 1) ∧
    (∀ (repo : CIRepo) (rolename : String) (md : MetadataM) (repo' : CIRepo),
        ciClose repo rolename md = .ok repo' →
        ∃ out, assocLookup repo'.files rolename = some out ∧
          out.signed.version = md.signed.version + 1) := by
  constructor
  · intro repo role md repo' h
    simp only [signerClose] at h
    split at h
    · exact absurd h (by simp)
    · split at h
      · exact absurd h (by simp)
      · injection h with h'
        subst h'
        exact ⟨_, assocLookup_dictSet_self _ _ _, rfl⟩
  · intro repo rolename md repo' h
    simp only [ciClose] at h
    split at h
    · exact absurd h (by simp)
    · split at h
      · exact absurd h (by simp)
      · split at h
        · exact absurd h (by simp)
        · split at h
          · split at h
            · exact absurd h (by simp)
            · split at h
              · exact absurd h (by simp)
              · split at h
                · exact absurd h (by simp)
                · exact absurd h (by simp)
                · injection h with h'
                  subst h'
                  exact ⟨_, assocLookup_dictSet_self _ _ _, rfl⟩
          · injection h with h'
            subst h'
            exact ⟨_, assocLookup_dictSet_self _ _ _, rfl⟩

/-- A concrete signer repository whose known-good targets version is 1. -/
def sampleSignerRepo : SignerRepo :=
  ⟨[("targets", sampleTargetsMd)], [], [("targets", sampleTargetsMd)], [],
   "@user", [], 0⟩

/-- C1 witness: the amended theorem applied at concrete inputs — the signer
commit stores version 2 = known-good 1 + 1, and the CI commit stores the
current version plus one. -/
theorem claim_C1_commit_versions_witness :
    (∃ repo' out, signerClose sampleSignerRepo "targets" sampleTargetsMd = .ok repo' ∧
      assocLookup repo'.files "targets" = some out ∧
      out.signed.version = signerKnownGoodVersion sampleSignerRepo "targets" + 1) ∧
    (∃ repo' out, ciClose sampleRepo "targets" sampleTargetsMd = .ok repo' ∧
      assocLookup repo'.files "targets" = some out ∧
      out.signed.version = sampleTargetsMd.signed.version + 1) := by
  constructor
  · obtain ⟨out, h1, h2⟩ :=
      claim_C1_commit_versions.1 sampleSignerRepo "targets" sampleTargetsMd _ rfl
    exact ⟨_, out, rfl, h1, h2⟩
  · obtain ⟨out, h1, h2⟩ :=
      claim_C1_commit_versions.2 sampleRepo "targets" sampleTargetsMd _ rfl
    exact ⟨_, out, rfl, h1, h2⟩

/-- C7: `_validate_role` returns `(False, message)` for every role whose
`expires` lies beyond now plus its declared expiry-period days (the message
is the expiry message unless an earlier check already failed), and when
`expires` is within that bound the expiry check never fires — the result is
never the expiry-too-far message. -/
theorem claim_C7_expiry_validation
    (repo : CIRepo) (delegator : MetadataM) (rolename : String)
    (md : MetadataM) (days : Int)
    (hopen : ciOpen repo rolename = .ok md)
    (hdays : assocLookup md.signed.unrecInt expiryPeriodKey = some days) :
    (repo.now + days * 86400 < md.signed.expires →
      ∃ m, ciValidateRole repo delegator rolename = .ok (false, some m)) ∧
    (md.signed.expires ≤ repo.now + days * 86400 →
      ∀ d, ciValidateRole repo delegator rolename ≠
        .ok (false, some (.expiryTooFar d))) := by
  constructor
  · intro hlate
    simp only [ciValidateRole, hopen, hdays]
    rw [if_pos hlate]
    split
    · exact ⟨_, rfl⟩
    · exact ⟨_, rfl⟩
  · intro hearly d hcontra
    simp only [ciValidateRole, hopen, hdays, ciValidateDelegate] at hcontra
    split at hcontra
    · simp at hcontra
    · rw [if_neg (not_lt.mpr hearly)] at hcontra
      repeat' split at hcontra
      all_goals simp at hcontra

/-- A concrete targets document whose expiry lies beyond its expiry
period. -/
def c7TargetsMd : MetadataM :=
  ⟨⟨1, 200 * 86400, [(expiryPeriodKey, 100), (signingPeriodKey, 50)],
    .targets ⟨[], none⟩⟩, []⟩

/-- A concrete CI repository holding the over-expired targets document and
no known-good directory. -/
def c7Repo : CIRepo :=
  ⟨[("root", sampleRootMd), ("targets", c7TargetsMd)], none, [], 0,
   fun _ _ _ => true, fun _ _ => "sig"⟩

/-- C7 witness: the theorem applied to the concrete over-expired targets
role, which validation rejects. -/
theorem claim_C7_expiry_validation_witness :
    ciOpen c7Repo "targets" = .ok c7TargetsMd ∧
    assocLookup c7TargetsMd.signed.unrecInt expiryPeriodKey = some 100 ∧
    c7Repo.now + 100 * 86400 < c7TargetsMd.signed.expires ∧
    ∃ m, ciValidateRole c7Repo sampleRootMd "targets" = .ok (false, some m) :=
  ⟨rfl, rfl, by decide,
   (claim_C7_expiry_validation c7Repo sampleRootMd "targets" c7TargetsMd 100
      rfl rfl).1 (by decide)⟩

/-- C4: when `_validate_role` reports a Root document valid, the document
declares `consistent_snapshot = true`, its timestamp and snapshot
delegations carry identical keyids and identical thresholds, and both
online delegations have a signing period of at least one day and an expiry
period strictly greater than the signing period. -/
theorem claim_C4_root_validity
    (repo : CIRepo) (delegator : MetadataM) (rolename : String)
    (md : MetadataM) (r : RootPayloadM) (m : Option ValidationMsg)
    (hopen : ciOpen repo rolename = .ok md)
    (hroot : md.signed.payload = .root r)
    (hvalid : ciValidateRole repo delegator rolename = .ok (true, m)) :
    r.consistentSnapshot = true ∧
    ∃ tsRole snRole,
      assocLookup r.roles "timestamp" = some tsRole ∧
      assocLookup r.roles "snapshot" = some snRole ∧
      tsRole.keyids = snRole.keyids ∧
      tsRole.threshold = snRole.threshold ∧
      (∃ e s, assocLookup tsRole.unrecInt expiryPeriodKey = some e ∧
        assocLookup tsRole.unrecInt signingPeriodKey = some s ∧
        1 ≤ s ∧ s < e) ∧
      (∃ e s, assocLookup snRole.unrecInt expiryPeriodKey = some e ∧
        assocLookup snRole.unrecInt signingPeriodKey = some s ∧
        1 ≤ s ∧ s < e) := by
  simp only [ciValidateRole, hopen, hroot] at hvalid
  repeat' split at hvalid
  all_goals try exact absurd hvalid (by simp)
  rename_i hcs hrootver hx3 hx2 tsR snR htsEq hsnEq hneq hx1 htsOk hx0 hsnOk
  obtain ⟨hk, hth⟩ := not_or.mp hneq
  exact ⟨not_not.mp hcs, tsR, snR, htsEq, hsnEq, not_ne_iff.mp hk,
    not_ne_iff.mp hth, onlinePeriodBad_ok_false _ htsOk,
    onlinePeriodBad_ok_false _ hsnOk⟩

/-- The artifact tree of spec §8.3: `tfile1.txt`, `levela/filea.txt`,
`levelb/fileb.txt`, `level1/file1.txt`, `level1/level2/tfile2.txt`
(directories appear as non-regular entries). -/
def c2Entries : List FSEntry :=
  [⟨"tfile1.txt", true, [49]⟩,
   ⟨"levela", false, []⟩, ⟨"levela/filea.txt", true, [50]⟩,
   ⟨"levelb", false, []⟩, ⟨"levelb/fileb.txt", true, [51]⟩,
   ⟨"level1", false, []⟩, ⟨"level1/file1.txt", true, [52]⟩,
   ⟨"level1/level2", false, []⟩, ⟨"level1/level2/tfile2.txt", true, [53]⟩]

/-- The targets document of spec §8.3: `myrole1` claims `levela/*` and
`levelb/*`; `myrole2` claims `level1/file1.txt`. -/
def c2TargetsMd : MetadataM :=
  ⟨⟨1, 0, [(expiryPeriodKey, 100)],
    .targets ⟨[], some ⟨[],
      [("myrole1", ⟨[], 1, some ["levela/*", "levelb/*"], true, []⟩),
       ("myrole2", ⟨[], 1, some ["level1/file1.txt"], true, []⟩)]⟩⟩⟩, []⟩

/-- The CI repository of the spec §8.3 scenario. -/
def c2Repo : CIRepo :=
  ⟨[("root", sampleRootMd), ("targets", c2TargetsMd)], some [], [], 0,
   fun _ _ _ => true, fun _ _ => "sig"⟩

/-- C2 (counterexample): in the spec §8.3 scenario the reconciled mapping
for the top-level `targets` role is exactly `{"tfile1.txt"}` — glob `*`
matches top-level names only, so `level1/level2/tfile2.txt` is not included
as the claim asserts. -/
theorem claim_C2_counterexample :
    (ciBuildTargets c2Repo c2Entries "targets").map
        (fun r => r.map Prod.fst) = .ok ["tfile1.txt"] ∧
    "level1/level2/tfile2.txt" ∉ ["tfile1.txt"] := ⟨rfl, by decide⟩

/-- C2 (amended): a reconciled mapping contains exactly the regular files
matching the role's own patterns — the top-level `targets` role uses the
single pattern `*` (top-level files only) and a delegated role its declared
paths; no file is excluded on account of a more specific role, and a file
can be routed to several roles. In the §8.3 scenario the mappings are
`targets = {"tfile1.txt"}` (not the claimed two-element set),
`myrole1 = {"levela/filea.txt", "levelb/fileb.txt"}` and
`myrole2 = {"level1/file1.txt"}`. -/
theorem claim_C2_target_routing :
    (∀ (patterns : List String) (entries : List FSEntry) (p : String),
      (assocLookup (globCollect patterns entries) p).isSome = true ↔
        ∃ e, e ∈ entries ∧ e.path = p ∧ e.isFile = true ∧
          ∃ pat, pat ∈ patterns ∧ globMatch pat p = true) ∧
    ciBuildPatterns c2Repo "targets" = .ok ["*"] ∧
    ciBuildPatterns c2Repo "myrole1" = .ok ["levela/*", "levelb/*"] ∧
    ciBuildPatterns c2Repo "myrole2" = .ok ["level1/file1.txt"] ∧
    (ciBuildTargets c2Repo c2Entries "targets").map
        (fun r => r.map Prod.fst) = .ok ["tfile1.txt"] ∧
    (ciBuildTargets c2Repo c2Entries "myrole1").map
        (fun r => r.map Prod.fst) =
      .ok ["levela/filea.txt", "levelb/fileb.txt"] ∧
    (ciBuildTargets c2Repo c2Entries "myrole2").map
        (fun r => r.map Prod.fst) = .ok ["level1/file1.txt"] := by
  refine ⟨fun patterns entries p => ?_, rfl, rfl, rfl, rfl, rfl, rfl⟩
  have h := globCollect_gen patterns entries [] p
  simpa [globCollect, assocLookup] using h

/-- C6: target reconciliation is idempotent — whatever a first
`update_targets` call returns, running it again against the unchanged
artifact directory aborts the edit: the repository state is unchanged and
no version is bumped (the call reports no update). -/
theorem claim_C6_update_targets_idempotent
    (repo : CIRepo) (rolename : String) (entries : List FSEntry)
    (r1 : CIRepo) (b : Bool)
    (h : ciUpdateTargets repo rolename entries = .ok (r1, b)) :
    ciUpdateTargets r1 rolename entries = .ok (r1, false) := by
  by_cases honline :
      rolename = "root" ∨ rolename = "timestamp" ∨ rolename = "snapshot"
  · rw [ciUpdateTargets, if_pos honline] at h
    simp only [Except.ok.injEq, Prod.mk.injEq] at h
    obtain ⟨h1, h2⟩ := h
    subst h1
    subst h2
    rw [ciUpdateTargets, if_pos honline]
  · rw [ciUpdateTargets, if_neg honline] at h
    cases hbp : ciBuildPatterns repo rolename with
    | error e =>
      simp only [ciBuildTargets, hbp] at h
      exact absurd h (by simp)
    | ok patterns =>
      simp only [ciBuildTargets, hbp] at h
      have hnodup : ((globCollect patterns entries).map Prod.fst).Nodup :=
        nodupKeys_globCollect patterns entries
      cases hop : ciOpen repo rolename with
      | error e => rw [hop] at h; exact absurd h (by simp)
      | ok md =>
        rw [hop] at h
        cases hpl : md.signed.payload with
        | root r =>
          simp only [hpl] at h
          exact absurd h (by simp)
        | snapshot meta =>
          simp only [hpl] at h
          exact absurd h (by simp)
        | timestamp v =>
          simp only [hpl] at h
          exact absurd h (by simp)
        | targets t =>
          simp only [hpl] at h
          by_cases habort :
              dictEq t.targets
                (keepCustomFields t.targets (globCollect patterns entries)) =
                true
          · rw [if_pos habort] at h
            simp only [Except.ok.injEq, Prod.mk.injEq] at h
            obtain ⟨h1, h2⟩ := h
            subst h1
            subst h2
            rw [ciUpdateTargets, if_neg honline]
            simp only [ciBuildTargets, hbp]
            rw [hop]
            simp only [hpl]
            rw [if_pos habort]
          · rw [if_neg habort] at h
            set mdNew : MetadataM :=
              MetadataM.mk
                (SignedM.mk md.signed.version md.signed.expires
                  md.signed.unrecInt
                  (PayloadM.targets
                    (TargetsPayloadM.mk
                      (keepCustomFields t.targets
                        (globCollect patterns entries))
                      t.delegations)))
                md.signatures with hmdNew
            cases hcl : ciClose repo rolename mdNew with
            | error e => rw [hcl] at h; exact absurd h (by simp)
            | ok rc =>
              rw [hcl] at h
              simp only [Except.ok.injEq, Prod.mk.injEq] at h
              obtain ⟨h1, h2⟩ := h
              subst h1
              subst h2
              obtain ⟨stored, hpayload, hshape⟩ :=
                ciClose_ok_shape repo rolename mdNew rc hcl
              subst hshape
              rw [ciUpdateTargets, if_neg honline]
              rw [ciBuildTargets_dictSet_role]
              simp only [ciBuildTargets, hbp]
              have hopen2 : ciOpen
                  { repo with files := dictSet repo.files rolename stored }
                  rolename = .ok stored := by
                unfold ciOpen
                rw [assocLookup_dictSet_self]
              rw [hopen2]
              have hpl2 : stored.signed.payload =
                  PayloadM.targets
                    (TargetsPayloadM.mk
                      (keepCustomFields t.targets
                        (globCollect patterns entries))
                      t.delegations) := hpayload
              simp only [hpl2]
              have hnd' : ((keepCustomFields t.targets
                  (globCollect patterns entries)).map Prod.fst).Nodup := by
                rw [keys_keepCustomFields]
                exact hnodup
              rw [keepCustomFields_idem t.targets
                (globCollect patterns entries) hnodup]
              rw [if_pos (dictEq_self_of_nodupKeys _ hnd')]

/-- C6 witness: the theorem applied at a concrete repository — the first
reconciliation against one artifact commits, and the second run against the
same artifact directory aborts without changing the repository. -/
theorem claim_C6_update_targets_idempotent_witness :
    ∃ r1, ciUpdateTargets sampleRepo "targets" c1Entries1 = .ok (r1, true) ∧
      ciUpdateTargets r1 "targets" c1Entries1 = .ok (r1, false) := by
  have h2 := claim_C6_update_targets_idempotent sampleRepo "targets"
    c1Entries1 _ _ rfl
  exact ⟨_, rfl, h2⟩

/-- A concrete offline key owned by `@user`. -/
def c4Key : KeyM :=
  ⟨"k1", "ed25519", "ed25519", [("public", "pk")], [(keyownerTag, "@user")]⟩

/-- A concrete Root payload that satisfies every validity check. -/
def c4RootPayload : RootPayloadM :=
  ⟨true, [("k1", c4Key)],
   [("root", ⟨["k1"], 1, none, false, []⟩), ("timestamp", sampleOnlineRole),
    ("snapshot", sampleOnlineRole), ("targets", defaultRole)]⟩

/-- The valid concrete root document, signed by `k1`. -/
def c4RootMd : MetadataM :=
  ⟨⟨2, 50 * 86400, [(expiryPeriodKey, 100)], .root c4RootPayload⟩,
   [("k1", "sig")]⟩

/-- A concrete CI repository holding only the valid root. -/
def c4Repo : CIRepo :=
  ⟨[("root", c4RootMd)], some [], [], 0, fun _ _ _ => true, fun _ _ => "sig"⟩

/-- C4 witness: the theorem applied to the concrete valid root — validation
succeeds there, so all the claimed root invariants hold for it. -/
theorem claim_C4_root_validity_witness :
    ciOpen c4Repo "root" = .ok c4RootMd ∧
    c4RootMd.signed.payload = .root c4RootPayload ∧
    ciValidateRole c4Repo c4RootMd "root" = .ok (true, none) ∧
    (c4RootPayload.consistentSnapshot = true ∧
     ∃ tsRole snRole,
       assocLookup c4RootPayload.roles "timestamp" = some tsRole ∧
       assocLookup c4RootPayload.roles "snapshot" = some snRole ∧
       tsRole.keyids = snRole.keyids ∧
       tsRole.threshold = snRole.threshold ∧
       (∃ e s, assocLookup tsRole.unrecInt expiryPeriodKey = some e ∧
         assocLookup tsRole.unrecInt signingPeriodKey = some s ∧
         1 ≤ s ∧ s < e) ∧
       (∃ e s, assocLookup snRole.unrecInt expiryPeriodKey = some e ∧
         assocLookup snRole.unrecInt signingPeriodKey = some s ∧
         1 ≤ s ∧ s < e)) :=
  ⟨rfl, rfl, rfl,
   claim_C4_root_validity c4Repo c4RootMd "root" c4RootMd c4RootPayload none
     rfl rfl rfl⟩

/-- C9: invalidity never escalates into an exception. First, whenever the
role metadata can be opened, carries its expiry-period annotation, has
well-formed online delegations if it is a root document, and the delegator
delegates the role, `_validate_role` returns a `(bool, message)` verdict —
every §3 invariant violation yields `(False, message)` rather than a raised
error. Second, whenever `status` succeeds with no pending invites, the
returned status surfaces the `_validate_role` verdict as `valid = False`
with its message instead of raising. -/
theorem claim_C9_status_surfaces_invalidity :
    (∀ (repo : CIRepo) (delegator : MetadataM) (rolename : String)
        (md : MetadataM) (days : Int),
      ciOpen repo rolename = .ok md →
      assocLookup md.signed.unrecInt expiryPeriodKey = some days →
      (∀ r, md.signed.payload = PayloadM.root r →
        ∃ tsRole snRole,
          assocLookup r.roles "timestamp" = some tsRole ∧
          assocLookup r.roles "snapshot" = some snRole ∧
          (∃ x, onlinePeriodBad tsRole = .ok x) ∧
          (∃ y, onlinePeriodBad snRole = .ok y)) →
      (∃ d role, mdDelegator delegator = some d ∧
        DelegatorM.getDelegatedRole d rolename = some role) →
      ∃ b m, ciValidateRole repo delegator rolename = .ok (b, m)) ∧
    (∀ (repo : CIRepo) (rolename : String) (s : SigningStatusM)
        (ks : Option SigningStatusM) (dmd : MetadataM)
        (msg : Option ValidationMsg),
      ciStatus repo rolename = .ok (s, ks) →
      s.invites = [] →
      ciOpen repo (if rolename = "root" ∨ rolename = "targets" then "root"
        else "targets") = .ok dmd →
      ciValidateRole repo dmd rolename = .ok (false, msg) →
      s.valid = false ∧ s.message = msg) := by
  constructor
  · intro repo delegator rolename md days hopen hdays hroot hdlg
    obtain ⟨d, role, hd, hrole⟩ := hdlg
    simp only [ciValidateRole, hopen, hdays]
    split
    · exact ⟨_, _, rfl⟩
    · split
      · exact ⟨_, _, rfl⟩
      · cases hp : md.signed.payload with
        | root r =>
          obtain ⟨tsRole, snRole, hts, hsn, ⟨x, hx⟩, ⟨y, hy⟩⟩ := hroot r hp
          simp only [hts, hsn]
          split
          · exact ⟨_, _, rfl⟩
          · split
            · exact ⟨_, _, rfl⟩
            · split
              · exact ⟨_, _, rfl⟩
              · cases x
                · cases y
                  · simp only [hx, hy]
                    exact ciValidateDelegate_ok _ _ _ _ d role hd hrole
                  · simp only [hx, hy]
                    exact ⟨_, _, rfl⟩
                · simp only [hx]
                  exact ⟨_, _, rfl⟩
        | targets t => exact ciValidateDelegate_ok _ _ _ _ d role hd hrole
        | snapshot meta => exact ciValidateDelegate_ok _ _ _ _ d role hd hrole
        | timestamp v => exact ciValidateDelegate_ok _ _ _ _ d role hd hrole
  · intro repo rolename s ks dmd msg hst hinv hdel hval
    simp only [ciStatus] at hst
    split at hst
    · exact absurd hst (by simp)
    · split at hst
      · exact absurd hst (by simp)
      · split at hst
        · exact absurd hst (by simp)
        · exact absurd hst (by simp)
        · next ses heq =>
          simp only [Except.ok.injEq, Prod.mk.injEq] at hst
          obtain ⟨h1, h2⟩ := hst
          subst h1
          exact getSigningStatus_surfaces repo rolename ses dmd msg heq hinv
            hdel hval

/-- A concrete CI repository with an invalid (over-expired) targets role and
an empty known-good directory. -/
def c9Repo : CIRepo :=
  ⟨[("root", sampleRootMd), ("targets", c7TargetsMd)], some [], [], 0,
   fun _ _ _ => true, fun _ _ => "sig"⟩

/-- C9 witness: the theorem applied at the invalid concrete repository —
validation returns a verdict rather than an error, and `status` reports the
invalid targets role as `valid = False` with the expiry message. -/
theorem claim_C9_status_surfaces_invalidity_witness :
    (∃ b m, ciValidateRole c9Repo sampleRootMd "targets" = .ok (b, m)) ∧
    ((⟨[], [], [], 1, [], false,
        some (.expiryTooFar 100)⟩ : SigningStatusM).valid = false ∧
     (⟨[], [], [], 1, [], false,
        some (.expiryTooFar 100)⟩ : SigningStatusM).message =
       some (.expiryTooFar 100)) := by
  constructor
  · exact claim_C9_status_surfaces_invalidity.1 c9Repo sampleRootMd "targets"
      c7TargetsMd 100 rfl rfl
      (fun r hr => absurd hr (by simp [c7TargetsMd])) ⟨_, _, rfl, rfl⟩
  · exact claim_C9_status_surfaces_invalidity.2 c9Repo "targets"
      ⟨[], [], [], 1, [], false, some (.expiryTooFar 100)⟩ none sampleRootMd
      (some (.expiryTooFar 100)) rfl rfl rfl rfl

/-- C5: whenever `_get_signing_status` returns a status whose invite set is
non-empty, that status has `valid = False` and no message — the invite
check short-circuits and `_validate_role` is not consulted. -/
theorem claim_C5_invites_invalidate
    (repo : CIRepo) (rolename : String) (knownGood : Bool)
    (s : SigningStatusM)
    (h : ciGetSigningStatus repo rolename knownGood = .ok (some s))
    (hinv : s.invites ≠ []) :
    s.valid = false ∧ s.message = none := by
  simp only [ciGetSigningStatus] at h
  repeat' split at h
  all_goals simp_all [List.isEmpty_iff]
  all_goals (cases h; simp_all)

/-- A concrete targets document with one delegation, `myrole1`. -/
def c5TargetsMd : MetadataM :=
  ⟨⟨1, 0, [(expiryPeriodKey, 100)],
    .targets ⟨[], some ⟨[],
      [("myrole1", ⟨[], 1, some ["myrole1/*"], true, []⟩)]⟩⟩⟩, []⟩

/-- A concrete CI repository with a pending invitation of `@alice` to
`myrole1`, a delegation of the `targets` role. -/
def c5Repo : CIRepo :=
  ⟨[("root", sampleRootMd), ("targets", c5TargetsMd)], some [],
   [("@alice", ["myrole1"])], 0, fun _ _ _ => true, fun _ _ => "sig"⟩

/-- C5 witness: the theorem applied to the concrete repository with a
pending invitation — the status of `targets` lists the invite and is
invalid without a message. -/
theorem claim_C5_invites_invalidate_witness :
    ∃ s, ciGetSigningStatus c5Repo "targets" false = .ok (some s) ∧
      s.invites ≠ [] ∧ s.valid = false ∧ s.message = none := by
  obtain ⟨h1, h2⟩ := claim_C5_invites_invalidate c5Repo "targets" false
    ⟨["@alice"], [], [], 1, [], false, none⟩ rfl (by decide)
  exact ⟨_, rfl, by decide, h1, h2⟩

end TufOnCi
